import Mathlib

/-!
# OxCal — verification of the query-parsing / term-lookup core

Shallow embedding of the OxCal repository's search core:
* `src/js/search/queryParser.js` (the current version, whose cascade tries
  day-term-week first) — `parseQuery` and its three sub-parsers,
* `src/js/data/termService.js` — the term-table lookup service,
* `src/js/search/searchEngine.js` — `search` and its dispatch targets,
* `src/js/search/suggestions.js` — `generateSuggestions`.

Strings are modelled as `List Char` internally (`String.data`); the JS regexes
used by the parser are implemented as explicit scanners with the exact
backtracking behaviour of the corresponding patterns.  JS `Date` values (always
date-valued in this code) are modelled by their civil day number (an `Int`,
days since 1970-01-01), which is the faithful model of date-only `Date`
arithmetic and comparison.
-/

namespace OxCal

/-! ## Character classes (JS regex semantics over the ASCII range) -/

/-- JS `\s` for the characters that can occur here (space, tab, newline,
carriage return, vertical tab, form feed). -/
def isSpaceChar (c : Char) : Bool :=
  c == ' ' || c == '\t' || c == '\n' || c == '\r' || c == '\x0b' || c == '\x0c'

/-- JS `\w` = `[A-Za-z0-9_]`. -/
def isWordChar (c : Char) : Bool :=
  c.isAlpha || c.isDigit || c == '_'

/-- JS `\b` before a word character: start of string or previous char non-word. -/
def isBoundary (prev : Option Char) : Bool :=
  match prev with
  | none => true
  | some c => !(isWordChar c)

/-- JS `\b` after a word character: end of string or next char non-word. -/
def boundaryAfter : List Char → Bool
  | [] => true
  | c :: _ => !(isWordChar c)

/-! ## String helpers (JS `trim`, `toLowerCase`, `includes`, `startsWith`) -/

def trimChars (l : List Char) : List Char :=
  ((l.dropWhile isSpaceChar).reverse.dropWhile isSpaceChar).reverse

def toLowerChars (l : List Char) : List Char :=
  l.map Char.toLower

/-- Embeds `query.trim().toLowerCase()` from `parseQuery`. -/
def normalizeChars (l : List Char) : List Char :=
  toLowerChars (trimChars l)

/-- JS `hay.includes(needle)` (for the non-empty needles used here). -/
def containsSub (needle : List Char) : List Char → Bool
  | [] => needle.isPrefixOf []
  | c :: rest => needle.isPrefixOf (c :: rest) || containsSub needle rest

/-! ## Digit runs and whitespace runs -/

/-- Maximal digit prefix (greedy `\d+` / `\d*`). -/
def takeDigits : List Char → List Char × List Char
  | [] => ([], [])
  | c :: rest =>
    if c.isDigit then
      let (ds, r) := takeDigits rest
      (c :: ds, r)
    else ([], c :: rest)

/-- Greedy `\s*`. -/
def skipSpaces : List Char → List Char
  | [] => []
  | c :: rest => if isSpaceChar c then skipSpaces rest else c :: rest

/-- Value of an all-digit capture under JS `parseInt`. -/
def digitVal (c : Char) : Nat := c.toNat - 48

def parseIntNat (s : List Char) : Nat :=
  s.foldl (fun a c => a * 10 + digitVal c) 0

/-- JS `s.slice(-2)`: the last two characters (whole string when shorter). -/
def sliceLast2 (s : String) : String :=
  if s.data.length ≤ 2 then s else String.mk (s.data.drop (s.data.length - 2))

/-- Embeds `String(n).padStart(2, '0')` for `n ≤ 99`. -/
def pad2 (n : Nat) : String :=
  if n < 10 then "0" ++ Nat.repr n else Nat.repr n

/-! ## The week-number regexes

`/w(?:ee)?k?\s*(\d+)/i` (pattern 1) and `/(\d+)\s*w(?:ee)?k/i` (pattern 2),
matched leftmost-first on the already lowercased query.  The greedy `\s*` and
`\d+` need no backtracking here: giving back a consumed whitespace character
can never let `\d+` start, and the shorter digit run in pattern 2 always leaves
a digit where `w` is required. -/

def weekDigitsAfter (l : List Char) : Option (List Char) :=
  match takeDigits (skipSpaces l) with
  | ([], _) => none
  | (ds, _) => some ds

/-- Embeds `k?\s*(\d+)`, with the `k` branch tried first. -/
def weekKOpt (l : List Char) : Option (List Char) :=
  match l with
  | 'k' :: r =>
    (match weekDigitsAfter r with
     | some ds => some ds
     | none => weekDigitsAfter l)
  | _ => weekDigitsAfter l

/-- Embeds `(?:ee)?k?\s*(\d+)` (everything of pattern 1 after the `w`), with the
`ee` branch tried first. -/
def weekAfterW (l : List Char) : Option (List Char) :=
  match l with
  | 'e' :: 'e' :: r =>
    (match weekKOpt r with
     | some ds => some ds
     | none => weekKOpt l)
  | _ => weekKOpt l

/-- Leftmost match of pattern 1, returning the capture group. -/
def weekMatch1 : List Char → Option (List Char)
  | [] => none
  | 'w' :: r =>
    (match weekAfterW r with
     | some ds => some ds
     | none => weekMatch1 r)
  | _ :: r => weekMatch1 r

/-- Embeds `\s*w(?:ee)?k` — the part of pattern 2 after the digit capture. -/
def p2AfterDigits (l : List Char) : Bool :=
  match skipSpaces l with
  | 'w' :: 'e' :: 'e' :: 'k' :: _ => true
  | 'w' :: 'k' :: _ => true
  | _ => false

/-- Leftmost match of pattern 2, returning the capture group. -/
def weekMatch2 : List Char → Option (List Char)
  | [] => none
  | c :: r =>
    if c.isDigit then
      let (ds, rest) := takeDigits (c :: r)
      if p2AfterDigits rest then some ds else weekMatch2 r
    else weekMatch2 r

/-- Embeds `query.match(p1) || query.match(p2)`. -/
def weekMatchOf (l : List Char) : Option (List Char) :=
  match weekMatch1 l with
  | some ds => some ds
  | none => weekMatch2 l

/-! ## The year regex  `/\b(20\d{2})(?:-(\d{2}))?\b/`

When the optional `-(\d{2})` group matches but the final `\b` fails, the
engine retries without the group; the `\b` then sits before the `-`, which is
a non-word character, so that retry always succeeds. -/

def yearAt : List Char → Option (List Char × Option (List Char))
  | c0 :: c1 :: c2 :: c3 :: rest =>
    if c0 == '2' && c1 == '0' && c2.isDigit && c3.isDigit then
      match rest with
      | '-' :: d1 :: d2 :: rest2 =>
        if d1.isDigit && d2.isDigit && boundaryAfter rest2 then
          some ([c0, c1, c2, c3], some [d1, d2])
        else some ([c0, c1, c2, c3], none)
      | _ => if boundaryAfter rest then some ([c0, c1, c2, c3], none) else none
    else none
  | _ => none

def yearScanGo (prev : Option Char) : List Char → Option (List Char × Option (List Char))
  | [] => none
  | c :: rest =>
    if isBoundary prev then
      match yearAt (c :: rest) with
      | some res => some res
      | none => yearScanGo (some c) rest
    else yearScanGo (some c) rest

def yearMatchOf (l : List Char) : Option (List Char × Option (List Char)) :=
  yearScanGo none l

/-! ## Terms -/

inductive Term
  | michaelmas
  | hilary
  | trinity
deriving DecidableEq, Repr

def Term.str : Term → String
  | .michaelmas => "michaelmas"
  | .hilary => "hilary"
  | .trinity => "trinity"

/-- The `termNames` object of `parseTermWeekQuery`, in insertion order. -/
def termNames : List (List Char × Term) :=
  [("michaelmas".data, .michaelmas), ("mich".data, .michaelmas), ("mt".data, .michaelmas),
   ("hilary".data, .hilary), ("hil".data, .hilary), ("ht".data, .hilary),
   ("trinity".data, .trinity), ("trin".data, .trinity), ("tt".data, .trinity)]

/-- First term whose key is a substring of the query (`query.includes(key)`). -/
def findTermName (l : List Char) : Option Term :=
  (termNames.find? (fun p => containsSub p.1 l)).map (·.2)

/-! ## Parsed queries -/

inductive ParsedQuery
  | invalid (error : Option String)
  | termWeek (term : Term) (week : Nat) (year : String)
  | date (date : String)
  | dayTermWeek (dayOfWeek : Nat) (term : Term) (week : Nat) (year : String)
deriving DecidableEq, Repr

def weekErrMsg : String := "Week number must be between 0 and 12"

/-- The academic-year string built by `parseTermWeekQuery` (both the verbatim
`YYYY-YY` branch and the bare-year derivation; note the code renders the
parsed integer back to a string in the bare-year branch). -/
def deriveYear (termName : Term) (ystr : List Char) (osuf : Option (List Char)) : String :=
  match osuf with
  | some suf => String.mk ystr ++ "-" ++ String.mk suf
  | none =>
    let startYear := parseIntNat ystr
    if termName = .michaelmas then
      Nat.repr startYear ++ "-" ++ sliceLast2 (Nat.repr (startYear + 1))
    else
      Nat.repr (startYear - 1) ++ "-" ++ sliceLast2 (Nat.repr startYear)

/-- Embeds `parseTermWeekQuery` (operates on the normalized query).  The JS guard is
`isNaN(n) || n < 0 || n > 12`; the capture is a digit run, so only the upper
bound is live in this model. -/
def parseTermWeekQuery (query : List Char) : ParsedQuery :=
  let weekMatch := weekMatchOf query
  let yearMatch := yearMatchOf query
  let termName := findTermName query
  match weekMatch, termName, yearMatch with
  | some ds, some t, some (ystr, osuf) =>
    let weekNumber := parseIntNat ds
    if weekNumber > 12 then .invalid (some weekErrMsg)
    else .termWeek t weekNumber (deriveYear t ystr osuf)
  | _, _, _ => .invalid none

/-! ## Date parsing (`parseDateQuery`) -/

def monthNames : List (List Char × Nat) :=
  [("january".data, 1), ("jan".data, 1), ("february".data, 2), ("feb".data, 2),
   ("march".data, 3), ("mar".data, 3), ("april".data, 4), ("apr".data, 4),
   ("may".data, 5), ("june".data, 6), ("jun".data, 6), ("july".data, 7),
   ("jul".data, 7), ("august".data, 8), ("aug".data, 8), ("september".data, 9),
   ("sep".data, 9), ("sept".data, 9), ("october".data, 10), ("oct".data, 10),
   ("november".data, 11), ("nov".data, 11), ("december".data, 12), ("dec".data, 12)]

def findMonthName (l : List Char) : Option Nat :=
  (monthNames.find? (fun p => containsSub p.1 l)).map (·.2)

/-- Embeds `(\d{1,2})-` with greedy preference for two digits. -/
def isoMonthSplit : List Char → Option (Nat × List Char)
  | a :: '-' :: rest => if a.isDigit then some (parseIntNat [a], rest) else none
  | a :: b :: '-' :: rest =>
    if a.isDigit && b.isDigit then some (parseIntNat [a, b], rest) else none
  | _ => none

/-- Embeds `(\d{1,2})$`. -/
def isoDayEnd : List Char → Option Nat
  | [a] => if a.isDigit then some (parseIntNat [a]) else none
  | [a, b] => if a.isDigit && b.isDigit then some (parseIntNat [a, b]) else none
  | _ => none

/-- Embeds `^(\d{4})-(\d{1,2})-(\d{1,2})$`. -/
def matchISO (l : List Char) : Option (Nat × Nat × Nat) :=
  match l with
  | y1 :: y2 :: y3 :: y4 :: '-' :: rest =>
    if y1.isDigit && y2.isDigit && y3.isDigit && y4.isDigit then
      match isoMonthSplit rest with
      | some (m, rest2) =>
        match isoDayEnd rest2 with
        | some d => some (parseIntNat [y1, y2, y3, y4], m, d)
        | none => none
      | none => none
    else none
  | _ => none

/-- Embeds `\b(\d{1,2})\b` at one position (two digits greedily; falling back to one
digit only helps when the second character is a non-word non-digit). -/
def dayAt : List Char → Option (List Char)
  | [] => none
  | [a] => if a.isDigit then some [a] else none
  | a :: b :: rest =>
    if a.isDigit then
      if b.isDigit then (if boundaryAfter rest then some [a, b] else none)
      else if !(isWordChar b) then some [a] else none
    else none

def dayScanGo (prev : Option Char) : List Char → Option (List Char)
  | [] => none
  | c :: rest =>
    if isBoundary prev then
      match dayAt (c :: rest) with
      | some ds => some ds
      | none => dayScanGo (some c) rest
    else dayScanGo (some c) rest

/-- Embeds `\b(20\d{2})\b` at one position. -/
def dateYearAt : List Char → Option (List Char)
  | '2' :: '0' :: c1 :: c2 :: rest =>
    if c1.isDigit && c2.isDigit && boundaryAfter rest then some ['2', '0', c1, c2]
    else none
  | _ => none

def dateYearGo (prev : Option Char) : List Char → Option (List Char)
  | [] => none
  | c :: rest =>
    if isBoundary prev then
      match dateYearAt (c :: rest) with
      | some res => some res
      | none => dateYearGo (some c) rest
    else dateYearGo (some c) rest

/-- Embeds `(\d{1,2})/` for the UK format. -/
def ukSlashSplit : List Char → Option (Nat × List Char)
  | a :: '/' :: rest => if a.isDigit then some (parseIntNat [a], rest) else none
  | a :: b :: '/' :: rest =>
    if a.isDigit && b.isDigit then some (parseIntNat [a, b], rest) else none
  | _ => none

def ukYearEnd : List Char → Option Nat
  | [a, b, c, d] =>
    if a.isDigit && b.isDigit && c.isDigit && d.isDigit then
      some (parseIntNat [a, b, c, d])
    else none
  | _ => none

/-- Embeds `^(\d{1,2})\/(\d{1,2})\/(\d{4})$`. -/
def matchUK (l : List Char) : Option (Nat × Nat × Nat) :=
  match ukSlashSplit l with
  | some (d, r1) =>
    match ukSlashSplit r1 with
    | some (m, r2) =>
      match ukYearEnd r2 with
      | some y => some (d, m, y)
      | none => none
    | none => none
  | none => none

/-- The UK-format fallthrough at the end of `parseDateQuery`. -/
def ukFallback (query : List Char) : ParsedQuery :=
  match matchUK query with
  | some (d, m, y) => .date (Nat.repr y ++ "-" ++ pad2 m ++ "-" ++ pad2 d)
  | none => .invalid none

/-- Embeds `parseDateQuery` (operates on the normalized query).  Note the natural
format falls through to the UK check both when its components are missing and
when the day is out of `[1, 31]`;  the ISO branch renders the year via
`parseInt`, unpadded. -/
def parseDateQuery (query : List Char) : ParsedQuery :=
  match matchISO query with
  | some (y, m, d) => .date (Nat.repr y ++ "-" ++ pad2 m ++ "-" ++ pad2 d)
  | none =>
    let dayMatch := dayScanGo none query
    let yearMatch := dateYearGo none query
    let monthNumber := findMonthName query
    match dayMatch, monthNumber, yearMatch with
    | some ds, some m, some ys =>
      let day := parseIntNat ds
      let year := parseIntNat ys
      if 1 ≤ day ∧ day ≤ 31 then
        .date (Nat.repr year ++ "-" ++ pad2 m ++ "-" ++ pad2 day)
      else ukFallback query
    | _, _, _ => ukFallback query

/-! ## Day-of-week in term week (`parseDayWeekQuery`) -/

/-- The `dayNames` object, in insertion order. -/
def dayNames : List (List Char × Nat) :=
  [("monday".data, 1), ("mon".data, 1), ("tuesday".data, 2), ("tue".data, 2),
   ("tues".data, 2), ("wednesday".data, 3), ("wed".data, 3), ("thursday".data, 4),
   ("thu".data, 4), ("thur".data, 4), ("thurs".data, 4), ("friday".data, 5),
   ("fri".data, 5), ("saturday".data, 6), ("sat".data, 6), ("sunday".data, 0),
   ("sun".data, 0)]

/-- First entry with `query.startsWith(name) || query.includes(" " + name + " ")`. -/
def findDayName (query : List Char) : Option (List Char × Nat) :=
  dayNames.find? (fun p =>
    p.1.isPrefixOf query || containsSub (' ' :: (p.1 ++ [' '])) query)

/-- Embeds `query.replace(new RegExp("\\b" + dayName + "\\b", "i"), "")`: splice out
the first whole-word occurrence of the day name. -/
def removeDayWordGo (prev : Option Char) (name : List Char) : List Char → List Char
  | [] => []
  | c :: rest =>
    if isBoundary prev && name.isPrefixOf (c :: rest)
        && boundaryAfter ((c :: rest).drop name.length) then
      (c :: rest).drop name.length
    else c :: removeDayWordGo (some c) name rest

def removeDayWord (name query : List Char) : List Char :=
  removeDayWordGo none name query

def parseDayWeekQuery (query : List Char) : ParsedQuery :=
  match findDayName query with
  | none => .invalid none
  | some (dayName, dayOfWeek) =>
    let queryWithoutDay := trimChars (removeDayWord dayName query)
    let termWeekResult := parseTermWeekQuery queryWithoutDay
    match termWeekResult with
    | .termWeek t w y => .dayTermWeek dayOfWeek t w y
    | .invalid (some e) => .invalid (some e)
    | _ => .invalid none

/-! ## `parseQuery` — the cascade, translated with its guards as written -/

def ParsedQuery.isInvalid : ParsedQuery → Bool
  | .invalid _ => true
  | _ => false

def ParsedQuery.errorOf : ParsedQuery → Option String
  | .invalid e => e
  | _ => none

def ParsedQuery.isDayTermWeek : ParsedQuery → Bool
  | .dayTermWeek .. => true
  | _ => false

def weekNumberKey : List Char := "Week number".data

def parseQuery (query : String) : ParsedQuery :=
  if query.data = [] then .invalid (some "Empty or invalid query")
  else
    let normalizedQuery := normalizeChars query.data
    let dayWeekResult := parseDayWeekQuery normalizedQuery
    let early : Option ParsedQuery :=
      if !dayWeekResult.isInvalid then
        if (match dayWeekResult.errorOf with
            | some e => containsSub weekNumberKey e.data
            | none => false) then some dayWeekResult
        else if dayWeekResult.isDayTermWeek then some dayWeekResult
        else none
      else none
    match early with
    | some r => r
    | none =>
      let termWeekResult := parseTermWeekQuery normalizedQuery
      if !termWeekResult.isInvalid || termWeekResult.errorOf.isSome then termWeekResult
      else
        let dateResult := parseDateQuery normalizedQuery
        if !dateResult.isInvalid then dateResult
        else .invalid (some "Could not parse query")

/-! ## Dates (`dateUtils.js`)

A date-valued JS `Date` is modelled by its civil day number: an `Int` counting
days since 1970-01-01.  Day arithmetic (`addDays` via `setDate`) is addition on
this number, and `Date` comparison is integer comparison.  Conversion between
day numbers and `(year, month, day)` triples uses the standard civil-calendar
formulas, which agree with the proleptic Gregorian calendar JS `Date` uses
(month assumed in `[1, 12]`, as produced by every call site). -/

def daysFromCivil (y m d : Nat) : Int :=
  let yi : Int := if m ≤ 2 then (y : Int) - 1 else (y : Int)
  let era : Int := (if 0 ≤ yi then yi else yi - 399) / 400
  let yoe : Int := yi - era * 400
  let mp : Int := ((m : Int) + 9) % 12
  let doy : Int := (153 * mp + 2) / 5 + (d : Int) - 1
  let doe : Int := yoe * 365 + yoe / 4 - yoe / 100 + doy
  era * 146097 + doe - 719468

def civilFromDays (z0 : Int) : Int × Int × Int :=
  let z := z0 + 719468
  let era : Int := (if 0 ≤ z then z else z - 146096) / 146097
  let doe : Int := z - era * 146097
  let yoe : Int := (doe - doe / 1460 + doe / 36524 - doe / 146096) / 365
  let y : Int := yoe + era * 400
  let doy : Int := doe - (365 * yoe + yoe / 4 - yoe / 100)
  let mp : Int := (5 * doy + 2) / 153
  let d : Int := doy - (153 * mp + 2) / 5 + 1
  let m : Int := if mp < 10 then mp + 3 else mp - 9
  (if m ≤ 2 then y + 1 else y, m, d)

/-- JS `String.prototype.split` with a single-character separator. -/
def splitOnChar (sep : Char) : List Char → List (List Char)
  | [] => [[]]
  | c :: rest =>
    if c == sep then [] :: splitOnChar sep rest
    else
      match splitOnChar sep rest with
      | g :: gs => (c :: g) :: gs
      | [] => [[c]]

/-- JS `Number(s)` for the digit strings produced by splitting a well-formed
ISO date (malformed components would yield `NaN` and an `Invalid Date`; those
never reach the comparisons in the claims, and fall back to `0` here). -/
def jsNumberNat (s : List Char) : Nat :=
  if s ≠ [] ∧ s.all Char.isDigit then parseIntNat s else 0

/-- Embeds `parseISODate` from `dateUtils.js`: split on `-`, `Number` each part,
build the date. -/
def parseISODate (dateStr : String) : Int :=
  match splitOnChar '-' dateStr.data with
  | y :: m :: d :: _ => daysFromCivil (jsNumberNat y) (jsNumberNat m) (jsNumberNat d)
  | _ => 0

/-- Embeds `addDays` (via `setDate`, which renormalizes, i.e. plain day addition). -/
def addDays (z : Int) (days : Int) : Int := z + days

/-- Embeds `toISODateString`: four-or-more-digit year unpadded, month/day padded. -/
def toISODateString (z : Int) : String :=
  match civilFromDays z with
  | (y, m, d) => toString y ++ "-" ++ pad2 m.toNat ++ "-" ++ pad2 d.toNat

def dayNamesFull : List String :=
  ["Sunday", "Monday", "Tuesday", "Wednesday", "Thursday", "Friday", "Saturday"]

def monthNamesFull : List String :=
  ["January", "February", "March", "April", "May", "June",
   "July", "August", "September", "October", "November", "December"]

/-- Embeds `Date.getDay()`: 1970-01-01 (day number 0) was a Thursday. -/
def getDayIndex (z : Int) : Nat := ((z + 4) % 7).toNat

/-- Embeds `formatDate(d, "full")`: e.g. `"Monday, 25 January 2024"`. -/
def formatDateFull (z : Int) : String :=
  match civilFromDays z with
  | (y, m, d) =>
    (dayNamesFull.getD (getDayIndex z) "") ++ ", " ++ toString d ++ " "
      ++ (monthNamesFull.getD (m.toNat - 1) "") ++ " " ++ toString y

/-! ## Term table and lookup service (`termService.js`)

The JSON table is modelled structurally: objects keyed by term name / week key
become association lists looked up by first match.  The module-level loaded
singleton becomes an explicit `TermsData` argument (querying before load
throws in JS; the claims all concern the loaded state). -/

structure WeekEntry where
  start : String
  «end» : String
deriving DecidableEq, Repr

/-- A term's weeks: the JSON object `{ week0: {...}, ... }` as key/value pairs. -/
abbrev TermData := List (String × WeekEntry)

structure YearRecord where
  year : String
  terms : List (String × TermData)
deriving DecidableEq, Repr

structure TermsData where
  terms : List YearRecord
deriving DecidableEq, Repr

/-- JS object property access for our association-list objects. -/
def lookupKey {α : Type} (m : List (String × α)) (k : String) : Option α :=
  (m.find? (fun p => p.1 == k)).map (·.2)

/-- Embeds `getYearData`: `termsData.terms.find(t => t.year === year)`. -/
def getYearData (td : TermsData) (year : String) : Option YearRecord :=
  td.terms.find? (fun t => t.year == year)

/-- Embeds `getTermData` (the term name, a `Term` here, is already lowercase). -/
def getTermData (td : TermsData) (year : String) (termName : Term) : Option TermData :=
  (getYearData td year).bind (fun yd => lookupKey yd.terms termName.str)

def weekKey (weekNumber : Nat) : String := "week" ++ Nat.repr weekNumber

/-- Embeds `getWeekData`: `termData["week" + weekNumber]`. -/
def getWeekData (td : TermsData) (year : String) (termName : Term) (weekNumber : Nat) :
    Option WeekEntry :=
  (getTermData td year termName).bind (fun tdta => lookupKey tdta (weekKey weekNumber))

structure TermWeekHit where
  year : String
  term : Term
  week : Nat
  weekData : WeekEntry
deriving DecidableEq, Repr

/-- Containment test of `findTermWeekForDate`: `start <= d` and
`d <= end-of-day(end)`, which for date-valued `d` is `d <= end`. -/
def scanWeeks (tdta : TermData) (z : Int) : List Nat → Option (Nat × WeekEntry)
  | [] => none
  | k :: rest =>
    match lookupKey tdta (weekKey k) with
    | none => scanWeeks tdta z rest
    | some wd =>
      if parseISODate wd.start ≤ z ∧ z ≤ parseISODate wd.«end» then some (k, wd)
      else scanWeeks tdta z rest

def termOrder : List Term := [.michaelmas, .hilary, .trinity]

def scanTerms (yd : YearRecord) (z : Int) : List Term → Option (Term × Nat × WeekEntry)
  | [] => none
  | t :: rest =>
    match lookupKey yd.terms t.str with
    | none => scanTerms yd z rest
    | some tdta =>
      match scanWeeks tdta z (List.range 13) with
      | some (k, wd) => some (t, k, wd)
      | none => scanTerms yd z rest

def scanYears (z : Int) : List YearRecord → Option TermWeekHit
  | [] => none
  | yd :: rest =>
    match scanTerms yd z termOrder with
    | some (t, k, wd) => some ⟨yd.year, t, k, wd⟩
    | none => scanYears z rest

/-- Embeds `findTermWeekForDate`: scan years in table order, terms in
michaelmas/hilary/trinity order, weeks 0–12, first containing entry wins. -/
def findTermWeekForDate (td : TermsData) (z : Int) : Option TermWeekHit :=
  scanYears z td.terms

/-- Embeds `getCurrentAcademicYear`, with today's date passed explicitly. -/
def getCurrentAcademicYear (td : TermsData) (today : Int) : String :=
  match findTermWeekForDate td today with
  | some tw => tw.year
  | none =>
    match civilFromDays today with
    | (cy, cm, _) =>
      if 7 ≤ cm then toString cy ++ "-" ++ sliceLast2 (toString (cy + 1))
      else toString (cy - 1) ++ "-" ++ sliceLast2 (toString cy)

/-! ## Search engine (`searchEngine.js`) -/

/-- The `query` echo field of a result: the raw string on parse failure, the
parsed query object otherwise. -/
inductive QueryEcho
  | raw (q : String)
  | parsed (p : ParsedQuery)
deriving DecidableEq, Repr

inductive SearchResult
  | failure (error : String) (query : QueryEcho)
  | weekRange (term : Term) (week : Nat) (year : String) (startDate endDate : String)
      (dates : List Int) (displayText detailText : String)
  | singleDate (date : String) (dates : List Int) (term : Option Term) (week : Option Nat)
      (year : Option String) (dayOfWeek : Option Nat) (displayText detailText : String)
deriving DecidableEq, Repr

/-- Embeds `capitalizeFirst`. -/
def capitalizeFirst (s : String) : String :=
  match s.data with
  | [] => ""
  | ch :: rest => String.mk (ch.toUpper :: rest)

/-- The date-enumeration loop of `searchTermWeek`
(`while (currentDate <= endDate) { push; +1 day }`), with the iteration count
`e + 1 - s` made explicit so the function is structurally recursive. -/
def enumDatesGo (s : Int) : Nat → List Int
  | 0 => []
  | n + 1 => s :: enumDatesGo (s + 1) n

def enumDates (s e : Int) : List Int :=
  enumDatesGo s (e + 1 - s).toNat

def notFoundMsg (week : Nat) (term : Term) (year : String) : String :=
  "Week " ++ Nat.repr week ++ " of " ++ capitalizeFirst term.str ++ " " ++ year ++ " not found"

/-- Embeds `searchTermWeek` (the `try/catch` guards only the not-loaded throw, which
cannot occur with an explicit table). -/
def searchTermWeek (td : TermsData) (term : Term) (week : Nat) (year : String) : SearchResult :=
  match getWeekData td year term week with
  | none => .failure (notFoundMsg week term year) (.parsed (.termWeek term week year))
  | some weekData =>
    let startDate := parseISODate weekData.start
    let endDate := parseISODate weekData.«end»
    .weekRange term week year weekData.start weekData.«end» (enumDates startDate endDate)
      (capitalizeFirst term.str ++ " Term " ++ year ++ ", Week " ++ Nat.repr week)
      (formatDateFull startDate ++ " - " ++ formatDateFull endDate)

/-- Embeds `searchDate`. -/
def searchDate (td : TermsData) (date : String) : SearchResult :=
  let z := parseISODate date
  match findTermWeekForDate td z with
  | some tw =>
    .singleDate date [z] (some tw.term) (some tw.week) (some tw.year) none
      (formatDateFull z)
      (capitalizeFirst tw.term.str ++ " Term " ++ tw.year ++ ", Week " ++ Nat.repr tw.week)
  | none => .singleDate date [z] none none none none (formatDateFull z) "Outside term time"

/-- Embeds `searchDayTermWeek`: Oxford weeks start on Sunday, so the day offset is
added to the week's start directly, then checked against the week's end. -/
def searchDayTermWeek (td : TermsData) (dayOfWeek : Nat) (term : Term) (week : Nat)
    (year : String) : SearchResult :=
  match getWeekData td year term week with
  | none => .failure (notFoundMsg week term year) (.parsed (.dayTermWeek dayOfWeek term week year))
  | some weekData =>
    let weekStart := parseISODate weekData.start
    let targetDate := addDays weekStart (dayOfWeek : Int)
    let weekEnd := parseISODate weekData.«end»
    if weekEnd < targetDate then
      .failure "Date falls outside the specified week" (.parsed (.dayTermWeek dayOfWeek term week year))
    else
      .singleDate (toISODateString targetDate) [targetDate] (some term) (some week) (some year)
        (some dayOfWeek) (formatDateFull targetDate)
        ((dayNamesFull.getD dayOfWeek "") ++ ", Week " ++ Nat.repr week ++ " of "
          ++ capitalizeFirst term.str ++ " Term " ++ year)

/-- Embeds `search`: parse, then dispatch on the parsed variant (the `default` arm of
the JS `switch` is unreachable over the exhaustive variant type). -/
def search (td : TermsData) (query : String) : SearchResult :=
  match parseQuery query with
  | .invalid e => .failure (e.getD "Invalid query") (.raw query)
  | .termWeek t w y => searchTermWeek td t w y
  | .date d => searchDate td d
  | .dayTermWeek dw t w y => searchDayTermWeek td dw t w y

/-! ## The mock table of `searchEngine.test.js` (the loaded-table exemplar) -/

def mockMichaelmas2024 : TermData :=
  [("week0", ⟨"2024-10-06", "2024-10-12"⟩), ("week1", ⟨"2024-10-13", "2024-10-19"⟩),
   ("week2", ⟨"2024-10-20", "2024-10-26"⟩), ("week3", ⟨"2024-10-27", "2024-11-02"⟩),
   ("week4", ⟨"2024-11-03", "2024-11-09"⟩), ("week5", ⟨"2024-11-10", "2024-11-16"⟩),
   ("week6", ⟨"2024-11-17", "2024-11-23"⟩), ("week7", ⟨"2024-11-24", "2024-11-30"⟩),
   ("week8", ⟨"2024-12-01", "2024-12-07"⟩)]

def mockHilary2024 : TermData :=
  [("week0", ⟨"2025-01-12", "2025-01-18"⟩), ("week1", ⟨"2025-01-19", "2025-01-25"⟩),
   ("week2", ⟨"2025-01-26", "2025-02-01"⟩), ("week3", ⟨"2025-02-02", "2025-02-08"⟩),
   ("week4", ⟨"2025-02-09", "2025-02-15"⟩), ("week5", ⟨"2025-02-16", "2025-02-22"⟩),
   ("week6", ⟨"2025-02-23", "2025-03-01"⟩), ("week7", ⟨"2025-03-02", "2025-03-08"⟩),
   ("week8", ⟨"2025-03-09", "2025-03-15"⟩)]

def mockTrinity2024 : TermData :=
  [("week0", ⟨"2025-04-20", "2025-04-26"⟩), ("week1", ⟨"2025-04-27", "2025-05-03"⟩),
   ("week2", ⟨"2025-05-04", "2025-05-10"⟩), ("week3", ⟨"2025-05-11", "2025-05-17"⟩),
   ("week4", ⟨"2025-05-18", "2025-05-24"⟩), ("week5", ⟨"2025-05-25", "2025-05-31"⟩),
   ("week6", ⟨"2025-06-01", "2025-06-07"⟩), ("week7", ⟨"2025-06-08", "2025-06-14"⟩),
   ("week8", ⟨"2025-06-15", "2025-06-21"⟩)]

def mockTermsData : TermsData :=
  ⟨[⟨"2024-25", [("michaelmas", mockMichaelmas2024), ("hilary", mockHilary2024),
                 ("trinity", mockTrinity2024)]⟩,
    ⟨"2025-26", [("michaelmas",
      [("week0", ⟨"2025-10-05", "2025-10-11"⟩), ("week1", ⟨"2025-10-12", "2025-10-18"⟩),
       ("week5", ⟨"2025-11-09", "2025-11-15"⟩)])]⟩,
    ⟨"2026-27", [("michaelmas", [("week5", ⟨"2026-11-08", "2026-11-14"⟩)])]⟩]⟩

/-! ## Suggestion generator (`suggestions.js`)

`generateSuggestions` reads the loaded table (via `getCurrentAcademicYear`)
and the current date (`new Date()`); both become explicit arguments. -/

structure Suggestion where
  text : String
  type : String
  description : String
deriving DecidableEq, Repr

/-- The `options` object: `options.maxSuggestions || 8` (so a configured `0`
falls back to the default, as JS `||` does on falsy values). -/
structure SuggestOptions where
  maxSuggestions : Option Nat := none
deriving DecidableEq, Repr

def SuggestOptions.cap (o : SuggestOptions) : Nat :=
  match o.maxSuggestions with
  | some n => if n = 0 then 8 else n
  | none => 8

/-- Embeds `getDefaultSuggestions` (its `nextYear` local is computed but unused). -/
def getDefaultSuggestions (td : TermsData) (today : Int) : List Suggestion :=
  let currentYear := getCurrentAcademicYear td today
  [⟨"Week 1 Michaelmas " ++ currentYear, "example", "First week of Michaelmas term"⟩,
   ⟨"Week 5 Hilary " ++ currentYear, "example", "Fifth week of Hilary term"⟩,
   ⟨"Trinity " ++ currentYear ++ " Week 8", "example", "Last week of Trinity full term"⟩,
   ⟨"Tuesday Week 3", "example", "Specific day in a term week"⟩]

def termSuggestionDefs : List (String × List String) :=
  [("Michaelmas", ["mich", "mt"]), ("Hilary", ["hil", "ht"]), ("Trinity", ["trin", "tt"])]

/-- Embeds `getTermSuggestions`. -/
def getTermSuggestions (td : TermsData) (today : Int) (input : List Char) : List Suggestion :=
  let currentYear := getCurrentAcademicYear td today
  termSuggestionDefs.flatMap (fun term =>
    let matched := input.isPrefixOf (toLowerChars term.1.data)
      || term.2.any (fun a => input.isPrefixOf a.data)
    if matched then
      [⟨term.1 ++ " " ++ currentYear, "term", term.1 ++ " term of " ++ currentYear⟩,
       ⟨"Week 1 " ++ term.1 ++ " " ++ currentYear, "term-week",
        "First week of " ++ term.1 ++ " term"⟩]
      ++ (if 2 < input.length then
            [⟨"Week 5 " ++ term.1 ++ " " ++ currentYear, "term-week",
              "Fifth week of " ++ term.1 ++ " term"⟩]
          else [])
    else [])

/-- Embeds `getWeekSuggestions`. -/
def getWeekSuggestions (td : TermsData) (today : Int) (input : List Char) : List Suggestion :=
  if "w".data.isPrefixOf input || "week".data.isPrefixOf input then
    let currentYear := getCurrentAcademicYear td today
    match weekMatch1 input with
    | some ds =>
      let weekNum := parseIntNat ds
      if weekNum ≤ 12 then
        [⟨"Week " ++ Nat.repr weekNum ++ " Michaelmas " ++ currentYear, "week",
          "Week " ++ Nat.repr weekNum ++ " of Michaelmas term"⟩,
         ⟨"Week " ++ Nat.repr weekNum ++ " Hilary " ++ currentYear, "week",
          "Week " ++ Nat.repr weekNum ++ " of Hilary term"⟩,
         ⟨"Week " ++ Nat.repr weekNum ++ " Trinity " ++ currentYear, "week",
          "Week " ++ Nat.repr weekNum ++ " of Trinity term"⟩]
      else genericWeekSuggestions
    | none => genericWeekSuggestions
  else []
where
  genericWeekSuggestions : List Suggestion :=
    ([0, 1, 4, 5, 8] : List Nat).map (fun week =>
      ⟨"Week " ++ Nat.repr week, "week-partial",
       if week = 0 then "Week before full term"
       else if week = 8 then "Last week of full term"
       else "Week " ++ Nat.repr week ++ " of term"⟩)

def daysFullListMondayFirst : List String :=
  ["Monday", "Tuesday", "Wednesday", "Thursday", "Friday", "Saturday", "Sunday"]

/-- Embeds `getDaySuggestions`. -/
def getDaySuggestions (td : TermsData) (today : Int) (input : List Char) : List Suggestion :=
  let currentYear := getCurrentAcademicYear td today
  daysFullListMondayFirst.flatMap (fun day =>
    if input.isPrefixOf (toLowerChars day.data) then
      [⟨day ++ " Week 1", "day-partial", day ++ " of Week 1"⟩]
      ++ (if 2 < input.length then
            [⟨day ++ " Week 5 Michaelmas " ++ currentYear, "day-week",
              day ++ " of Week 5, Michaelmas term"⟩]
          else [])
    else [])

/-- Embeds `getRelevantMonths`: current month (0-based) and the next three. -/
def getRelevantMonths (today : Int) : List String :=
  match civilFromDays today with
  | (_, cm, _) =>
    let currentMonth := cm.toNat - 1
    (List.range 4).map (fun i => monthNamesFull.getD ((currentMonth + i) % 12) "")

/-- Embeds `input.match(/^(\d{1,2})/)`. -/
def anchoredDay12 : List Char → Option Nat
  | [] => none
  | [a] => if a.isDigit then some (parseIntNat [a]) else none
  | a :: b :: _ =>
    if a.isDigit then
      if b.isDigit then some (parseIntNat [a, b]) else some (parseIntNat [a])
    else none

/-- Embeds `getDateFormatSuggestions` (the current calendar year, not the academic
year, via `new Date().getFullYear()`). -/
def getDateFormatSuggestions (today : Int) (input : List Char) : List Suggestion :=
  let hasNumber := input.any Char.isDigit
  let currentYear : Int := (civilFromDays today).1
  let part1 :=
    if hasNumber then
      match anchoredDay12 input with
      | some day =>
        if 1 ≤ day ∧ day ≤ 31 then
          (getRelevantMonths today).map (fun month =>
            ⟨Nat.repr day ++ " " ++ month ++ " " ++ toString currentYear, "date",
             "Date in " ++ month⟩)
        else []
      | none => []
    else []
  let part2 := monthNamesFull.flatMap (fun month =>
    if input.isPrefixOf (toLowerChars month.data) then
      [⟨"15 " ++ month ++ " " ++ toString currentYear, "date", "Mid-" ++ month ++ " date"⟩]
    else [])
  part1 ++ part2

/-- The `Map`-based de-duplication by `text`: first-occurrence position, last
value for a repeated key. -/
def upsertByText (acc : List Suggestion) (s : Suggestion) : List Suggestion :=
  if acc.any (fun a => a.text == s.text) then
    acc.map (fun a => if a.text == s.text then s else a)
  else acc ++ [s]

def dedupeByText (l : List Suggestion) : List Suggestion :=
  l.foldl upsertByText []

/-- Embeds `generateSuggestions`. -/
def generateSuggestions (td : TermsData) (today : Int) (input : String)
    (options : SuggestOptions) : List Suggestion :=
  if input.data = [] ∨ input.data.length < 2 then getDefaultSuggestions td today
  else
    let normalized := trimChars (toLowerChars input.data)
    let suggestions :=
      getTermSuggestions td today normalized
        ++ getWeekSuggestions td today normalized
        ++ getDaySuggestions td today normalized
        ++ getDateFormatSuggestions today normalized
    (dedupeByText suggestions).take options.cap

/-- The mock table of `suggestions.test.js`. -/
def sugMockTermsData : TermsData :=
  ⟨[⟨"2024-25", [("michaelmas", [("week1", ⟨"2024-10-13", "2024-10-19"⟩)]),
                 ("hilary", [("week1", ⟨"2025-01-19", "2025-01-25"⟩)]),
                 ("trinity", [("week1", ⟨"2025-04-27", "2025-05-03"⟩)])]⟩,
    ⟨"2025-26", [("michaelmas", [("week1", ⟨"2025-10-12", "2025-10-18"⟩)])]⟩]⟩

/-- The mocked "today" of `suggestions.test.js`: 2024-11-15. -/
def sugMockToday : Int := daysFromCivil 2024 11 15

/-! ## Statement-level definitions for the claims -/

/-- A "non-applicable failure" in the spec's description of the cascade: an
`invalid` result carrying no error message. -/
def isNonApplicableFailure : ParsedQuery → Bool
  | .invalid none => true
  | _ => false

/-- The grammar cascade exactly as claim C3 states it: try day-term-week,
term-week, then absolute date, in that order, returning the first result that
is not a non-applicable failure; otherwise "Could not parse query". -/
def cascadeSpecParse (s : String) : ParsedQuery :=
  let nq := normalizeChars s.data
  let dayR := parseDayWeekQuery nq
  if !isNonApplicableFailure dayR then dayR
  else
    let tw := parseTermWeekQuery nq
    if !isNonApplicableFailure tw then tw
    else
      let dr := parseDateQuery nq
      if !isNonApplicableFailure dr then dr
      else .invalid (some "Could not parse query")

/-- The cascade as the code actually dispatches it (amended C3): the
day-term-week branch's result is used only when it is a valid day-term-week
parse; a typed failure from that branch is not returned at the first stage. -/
def cascadeAmendedParse (s : String) : ParsedQuery :=
  let nq := normalizeChars s.data
  let dayR := parseDayWeekQuery nq
  if dayR.isDayTermWeek then dayR
  else
    let tw := parseTermWeekQuery nq
    if !isNonApplicableFailure tw then tw
    else
      let dr := parseDateQuery nq
      if !isNonApplicableFailure dr then dr
      else .invalid (some "Could not parse query")

/-- All whitespace removed — two strings "differ only in casing and
whitespace" when their lowercased `stripSpaces` images agree. -/
def stripSpaces (l : List Char) : List Char :=
  l.filter (fun c => !isSpaceChar c)

/-- The canonical term-week query string of C1: `"Week {week} {Term} {year}"`. -/
def mkTermWeekQuery (w : Nat) (t : Term) (y : String) : String :=
  "Week " ++ Nat.repr w ++ " " ++ capitalizeFirst t.str ++ " " ++ y

/-- The academic-year string claim C4 asserts for a bare year `Y`:
`"Y-((Y+1) mod 100)"` for Michaelmas, `"(Y-1)-(Y mod 100)"` otherwise,
with a two-digit zero-padded suffix. -/
def acadYearFromBare : Term → Nat → String
  | .michaelmas, y => Nat.repr y ++ "-" ++ pad2 ((y + 1) % 100)
  | _, y => Nat.repr (y - 1) ++ "-" ++ pad2 (y % 100)

/-- The week entry's inclusive date range contains the day `z`. -/
def entryContains (wd : WeekEntry) (z : Int) : Prop :=
  parseISODate wd.start ≤ z ∧ z ≤ parseISODate wd.«end»

/-- Some week entry (weeks 0–12 of some term of some year record of the
table) contains `z`. -/
def tableHasDate (td : TermsData) (z : Int) : Prop :=
  ∃ yd ∈ td.terms, ∃ t ∈ termOrder, ∃ tdta, lookupKey yd.terms t.str = some tdta
    ∧ ∃ k ∈ List.range 13, ∃ wd, lookupKey tdta (weekKey k) = some wd ∧ entryContains wd z

instance tableHasDateDecidable (td : TermsData) (z : Int) : Decidable (tableHasDate td z) := by
  unfold tableHasDate entryContains
  infer_instance

/-- A table with a week entry shorter than Sunday–Saturday, exercising the
out-of-week failure of `searchDayTermWeek`. -/
def shortWeekTermsData : TermsData :=
  ⟨[⟨"2024-25", [("trinity", [("week2", ⟨"2025-05-04", "2025-05-06"⟩)])]⟩]⟩

end OxCal

-- Validation of the parser embedding against the cases of queryParser.test.js.
open OxCal in
example : parseQuery "Week 5 Michaelmas 2026" = .termWeek .michaelmas 5 "2026-27" := by decide
open OxCal in
example : parseQuery "michaelmas week 3 2025" = .termWeek .michaelmas 3 "2025-26" := by decide
open OxCal in
example : parseQuery "mich wk 5 2026" = .termWeek .michaelmas 5 "2026-27" := by decide
open OxCal in
example : parseQuery "hilary week 2 2025" = .termWeek .hilary 2 "2024-25" := by decide
open OxCal in
example : parseQuery "Trinity 2025 Week 8" = .termWeek .trinity 8 "2024-25" := by decide
open OxCal in
example : parseQuery "Week 0 HT 2024-25" = .termWeek .hilary 0 "2024-25" := by decide
open OxCal in
example : parseQuery "Week 13 Michaelmas 2026" = .invalid (some weekErrMsg) := by decide
open OxCal in
example : parseQuery "25 March 2027" = .date "2027-03-25" := by decide
open OxCal in
example : parseQuery "March 25, 2027" = .date "2027-03-25" := by decide
open OxCal in
example : parseQuery "2027-03-25" = .date "2027-03-25" := by decide
open OxCal in
example : parseQuery "25/03/2027" = .date "2027-03-25" := by decide
open OxCal in
example : parseQuery "1 Jan 2025" = .date "2025-01-01" := by decide
open OxCal in
example : (parseQuery "32 March 2027").isInvalid = true := by decide
open OxCal in
example : parseQuery "Tuesday Week 2 Trinity 2025" = .dayTermWeek 2 .trinity 2 "2024-25" := by decide
open OxCal in
example : parseQuery "Monday week 1 Michaelmas 2026" = .dayTermWeek 1 .michaelmas 1 "2026-27" := by decide
open OxCal in
example : parseQuery "Fri Week 5 HT 2025" = .dayTermWeek 5 .hilary 5 "2024-25" := by decide
open OxCal in
example : parseQuery "Sunday Week 0 Michaelmas 2025" = .dayTermWeek 0 .michaelmas 0 "2025-26" := by decide
open OxCal in
example : parseQuery "something random" = .invalid (some "Could not parse query") := by decide
open OxCal in
example : parseQuery "" = .invalid (some "Empty or invalid query") := by decide
open OxCal in
example : parseQuery "WEEK 5 MICHAELMAS 2026" = parseQuery "week 5 michaelmas 2026" := by decide
open OxCal in
example : parseQuery "  Week   5   Michaelmas   2026  " = .termWeek .michaelmas 5 "2026-27" := by decide
-- the C2/C3 analysis inputs
open OxCal in
example : parseDayWeekQuery (normalizeChars "wk monday 13 tt 2025".data) = .invalid (some weekErrMsg) := by decide
open OxCal in
example : parseQuery "wk monday 13 tt 2025" = .invalid (some "Could not parse query") := by decide
open OxCal in
example : parseQuery "13 wk tt 2025" = .invalid (some weekErrMsg) := by decide
open OxCal in
example : parseQuery "1 3 wk tt 2025" = .termWeek .trinity 3 "2024-25" := by decide
open OxCal in
example : parseQuery "week 2 trinity 2025 tuesday" = .termWeek .trinity 2 "2024-25" := by decide
-- Validation of the search/date embedding against the cases of searchEngine.test.js.
open OxCal in
example : search mockTermsData "Week 5 Michaelmas 2026" =
    .weekRange .michaelmas 5 "2026-27" "2026-11-08" "2026-11-14"
      (enumDates (parseISODate "2026-11-08") (parseISODate "2026-11-14"))
      "Michaelmas Term 2026-27, Week 5"
      (formatDateFull (parseISODate "2026-11-08") ++ " - " ++ formatDateFull (parseISODate "2026-11-14")) := by decide
open OxCal in
example : (enumDates (parseISODate "2026-11-08") (parseISODate "2026-11-14")).length = 7 := by decide
open OxCal in
example : search mockTermsData "Trinity Week 2 2025" =
    .weekRange .trinity 2 "2024-25" "2025-05-04" "2025-05-10"
      (enumDates (parseISODate "2025-05-04") (parseISODate "2025-05-10"))
      "Trinity Term 2024-25, Week 2"
      (formatDateFull (parseISODate "2025-05-04") ++ " - " ++ formatDateFull (parseISODate "2025-05-10")) := by decide
open OxCal in
example : search mockTermsData "Week 9 Michaelmas 2026" =
    .failure "Week 9 of Michaelmas 2026-27 not found" (.parsed (.termWeek .michaelmas 9 "2026-27")) := by decide
open OxCal in
example : (search mockTermsData "25 March 2025") =
    .singleDate "2025-03-25" [parseISODate "2025-03-25"] none none none none
      "Tuesday, 25 March 2025" "Outside term time" := by decide
open OxCal in
example : (search mockTermsData "15 November 2025") =
    .singleDate "2025-11-15" [parseISODate "2025-11-15"] (some .michaelmas) (some 5) (some "2025-26") none
      (formatDateFull (parseISODate "2025-11-15")) "Michaelmas Term 2025-26, Week 5" := by decide
open OxCal in
example : (search mockTermsData "Tuesday Week 2 Trinity 2025") =
    .singleDate "2025-05-06" [parseISODate "2025-05-06"] (some .trinity) (some 2) (some "2024-25") (some 2)
      "Tuesday, 6 May 2025" "Tuesday, Week 2 of Trinity Term 2024-25" := by decide
open OxCal in
example : (search mockTermsData "Monday Week 1 Michaelmas 2025") =
    .singleDate "2025-10-13" [parseISODate "2025-10-13"] (some .michaelmas) (some 1) (some "2025-26") (some 1)
      (formatDateFull (parseISODate "2025-10-13")) "Monday, Week 1 of Michaelmas Term 2025-26" := by decide
open OxCal in
example : (search mockTermsData "Sunday Week 0 Hilary 2025") =
    .singleDate "2025-01-12" [parseISODate "2025-01-12"] (some .hilary) (some 0) (some "2024-25") (some 0)
      (formatDateFull (parseISODate "2025-01-12")) "Sunday, Week 0 of Hilary Term 2024-25" := by decide
open OxCal in
example : (search mockTermsData "Friday Week 5 Hilary 2025") =
    .singleDate "2025-02-21" [parseISODate "2025-02-21"] (some .hilary) (some 5) (some "2024-25") (some 5)
      (formatDateFull (parseISODate "2025-02-21")) "Friday, Week 5 of Hilary Term 2024-25" := by decide
open OxCal in
example : findTermWeekForDate mockTermsData (daysFromCivil 2024 7 15) = none := by decide
open OxCal in
example : toISODateString (parseISODate "2025-05-04") = "2025-05-04" := by decide
open OxCal in
example : getDayIndex (parseISODate "2025-05-04") = 0 := by decide
-- Validation of the suggestion embedding against the cases of suggestions.test.js.
open OxCal in
example : (generateSuggestions sugMockTermsData sugMockToday "" {}).length = 4 := by decide
open OxCal in
example : ((generateSuggestions sugMockTermsData sugMockToday "a" {}).map Suggestion.type).getD 0 "" = "example" := by decide
open OxCal in
example : (generateSuggestions sugMockTermsData sugMockToday "mich" {}).any
    (fun s => containsSub "Michaelmas".data s.text.data) = true := by decide
open OxCal in
example : (generateSuggestions sugMockTermsData sugMockToday "mich" {}).any
    (fun s => containsSub "2024-25".data s.text.data) = true := by decide
open OxCal in
example : (generateSuggestions sugMockTermsData sugMockToday "week 3" {}).any
    (fun s => containsSub "Hilary".data s.text.data) = true := by decide
-- note: the repo's own test expects ≤ 3 here, but inputs of length < 2 take the
-- uncapped default path, so the code returns 4 — evidence for the C9 correction
open OxCal in
example : (generateSuggestions sugMockTermsData sugMockToday "w" (SuggestOptions.mk (some 3))).length = 4 := by decide
open OxCal in
example : (generateSuggestions sugMockTermsData sugMockToday "w" {}).length ≤ 8 := by decide
open OxCal in
example : (generateSuggestions sugMockTermsData sugMockToday "friday" {}).any
    (fun s => containsSub "Week".data s.text.data) = true := by decide
open OxCal in
example : (generateSuggestions sugMockTermsData sugMockToday "march" {}).any
    (fun s => containsSub "2024".data s.text.data) = true := by decide
-- the C9 counterexample behaviour
open OxCal in
example : (generateSuggestions sugMockTermsData sugMockToday "x" (SuggestOptions.mk (some 2))).length = 4 := by decide

namespace OxCal

/-! ## Character lemmas -/

theorem beq_false_of_digit_left {c x : Char} (hc : c.isDigit = true)
    (hx : x.isDigit = false) : (c == x) = false := by
  cases h : c == x with
  | false => rfl
  | true => exact absurd (beq_iff_eq.mp h ▸ hc) (by simp [hx])

theorem beq_false_of_digit_right {c x : Char} (hc : c.isDigit = true)
    (hx : x.isDigit = false) : (x == c) = false := by
  cases h : x == c with
  | false => rfl
  | true => exact absurd (beq_iff_eq.mp h ▸ hx) (by simp [hc])

theorem toLower_digit {c : Char} (h : c.isDigit = true) : c.toLower = c := by
  simp only [Char.isDigit, decide_eq_true_eq, Bool.and_eq_true] at h
  obtain ⟨h1, h2⟩ := h
  have h1' : 48 ≤ c.val.toNat := h1
  have h2' : c.val.toNat ≤ 57 := h2
  unfold Char.toLower
  rw [if_neg (by unfold Char.toNat; omega)]

theorem isWordChar_digit {c : Char} (h : c.isDigit = true) : isWordChar c = true := by
  simp [isWordChar, h]

theorem isSpaceChar_digit {c : Char} (h : c.isDigit = true) : isSpaceChar c = false := by
  simp only [isSpaceChar,
    beq_false_of_digit_left h (show (' ').isDigit = false by decide),
    beq_false_of_digit_left h (show ('\t').isDigit = false by decide),
    beq_false_of_digit_left h (show ('\n').isDigit = false by decide),
    beq_false_of_digit_left h (show ('\r').isDigit = false by decide),
    beq_false_of_digit_left h (show ('\x0b').isDigit = false by decide),
    beq_false_of_digit_left h (show ('\x0c').isDigit = false by decide),
    Bool.or_self, Bool.or_false]

/-! ## Range of the sub-parsers -/

theorem parseTermWeekQuery_cases (q : List Char) :
    (∃ t w y, parseTermWeekQuery q = .termWeek t w y)
    ∨ parseTermWeekQuery q = .invalid none
    ∨ parseTermWeekQuery q = .invalid (some weekErrMsg) := by
  unfold parseTermWeekQuery
  cases h1 : weekMatchOf q with
  | none => simp
  | some ds =>
    cases h2 : findTermName q with
    | none => simp
    | some t =>
      cases h3 : yearMatchOf q with
      | none => simp
      | some p =>
        obtain ⟨ystr, osuf⟩ := p
        by_cases hw : parseIntNat ds > 12
        · simp [hw]
        · simp only [if_neg hw]
          exact Or.inl ⟨t, _, _, rfl⟩

theorem parseDayWeekQuery_cases (q : List Char) :
    (∃ d t w y, parseDayWeekQuery q = .dayTermWeek d t w y)
    ∨ parseDayWeekQuery q = .invalid none
    ∨ parseDayWeekQuery q = .invalid (some weekErrMsg) := by
  unfold parseDayWeekQuery
  cases h1 : findDayName q with
  | none => simp
  | some p =>
    obtain ⟨name, d⟩ := p
    rcases parseTermWeekQuery_cases (trimChars (removeDayWord name q)) with ⟨t, w, y, h2⟩ | h2 | h2 <;>
      simp [h2]

theorem parseDateQuery_cases (q : List Char) :
    (∃ s, parseDateQuery q = .date s) ∨ parseDateQuery q = .invalid none := by
  have huk : (∃ s, ukFallback q = .date s) ∨ ukFallback q = .invalid none := by
    unfold ukFallback
    cases h : matchUK q with
    | none => simp
    | some p => exact Or.inl ⟨_, rfl⟩
  unfold parseDateQuery
  cases h1 : matchISO q with
  | some p => exact Or.inl ⟨_, rfl⟩
  | none =>
    cases h2 : dayScanGo none q with
    | none => simpa using huk
    | some ds =>
      cases h3 : findMonthName q with
      | none => simpa using huk
      | some m =>
        cases h4 : dateYearGo none q with
        | none => simpa using huk
        | some ys =>
          by_cases hday : 1 ≤ parseIntNat ds ∧ parseIntNat ds ≤ 31
          · simp only [if_pos hday]
            exact Or.inl ⟨_, rfl⟩
          · simpa [if_neg hday] using huk

/-!
## C2 — week-number error propagation through the day-term-week wrapper

The wrapper (`parseDayWeekQuery`) does propagate the typed failure, but the
check in `parseQuery` that would return it is guarded by
`dayWeekResult.type !== 'invalid'`, and propagated errors carry
`type: 'invalid'`, so that check is unreachable.  The error usually resurfaces
because `parseTermWeekQuery` is re-run on the full query, but when the day
token sits between the week token and its digits (`"wk monday 13 tt 2025"`),
the full-query regex no longer finds a week number and `parseQuery` degrades
to the generic "Could not parse query".
-/

/-- C2: for a query containing a week token resolving outside [0,12] together
with a term and a year, `parseQuery` is claimed to return the typed failure
"Week number must be between 0 and 12" even when a day-of-week token is
present.  At `"wk monday 13 tt 2025"` the day-term-week wrapper produces
exactly that typed failure, yet `parseQuery` returns the generic failure: the
propagation branch in `parseQuery` is dead code. -/
theorem C2_week_error_propagation_eval :
    parseDayWeekQuery (normalizeChars "wk monday 13 tt 2025".data)
        = .invalid (some weekErrMsg)
    ∧ parseQuery "wk monday 13 tt 2025" = .invalid (some "Could not parse query")
    ∧ containsSub weekNumberKey "Could not parse query".data = false := by
  refine ⟨by decide, by decide, by decide⟩

/-!
## C3 — the cascade precedence
-/

/-- C3, counterexample: the cascade the spec describes returns the day
branch's typed week-number failure (it is an applicable failure), but
`parseQuery` drops it and falls through to "Could not parse query". -/
theorem C3_cascade_cex :
    cascadeSpecParse "wk monday 13 tt 2025" = .invalid (some weekErrMsg)
    ∧ parseQuery "wk monday 13 tt 2025" = .invalid (some "Could not parse query")
    ∧ parseQuery "wk monday 13 tt 2025" ≠ cascadeSpecParse "wk monday 13 tt 2025" := by
  refine ⟨by decide, by decide, by decide⟩

/-- C3, amended: on non-empty input, `parseQuery` tries the three grammars in
the order day-term-week, term-week, date, but uses the day branch's result
only when it is a valid day-term-week parse (a typed failure from the day
branch is not returned at that stage); the term-week branch's result is
returned when it is a success or carries an error, the date branch's when it
is a success, and otherwise the result is "Could not parse query". -/
theorem C3_cascade_amended (s : String) (h : s.data ≠ []) :
    parseQuery s = cascadeAmendedParse s := by
  unfold parseQuery cascadeAmendedParse
  rw [if_neg h]
  rcases parseDayWeekQuery_cases (normalizeChars s.data) with ⟨d, t, w, y, hd⟩ | hd | hd <;>
  rcases parseTermWeekQuery_cases (normalizeChars s.data) with ⟨t', w', y', ht⟩ | ht | ht <;>
  rcases parseDateQuery_cases (normalizeChars s.data) with ⟨ds', hds⟩ | hds <;>
  simp [hd, ht, hds, ParsedQuery.isInvalid, ParsedQuery.errorOf, ParsedQuery.isDayTermWeek,
    isNonApplicableFailure]

/-- Witness for the amended C3 at a concrete input. -/
theorem C3_cascade_amended_witness :
    parseQuery "Week 5 Michaelmas 2026" = cascadeAmendedParse "Week 5 Michaelmas 2026" :=
  C3_cascade_amended "Week 5 Michaelmas 2026" (by decide)

/-!
## C7 — day-of-week tokens are recognized only at the start or space-surrounded
-/

/-- C7, counterexample: in `"week 2 trinity 2025 tuesday"` the day token
occurs (at the end), and the remaining text after removing it parses as a
valid term-week, yet `parseQuery` returns the plain term-week, not a
day-term-week: the detector only accepts `startsWith(name)` or
`includes(" name ")`, and a final day token has no trailing space. -/
theorem C7_day_anywhere_cex :
    containsSub "tuesday".data (normalizeChars "week 2 trinity 2025 tuesday".data) = true
    ∧ parseTermWeekQuery (trimChars (removeDayWord "tuesday".data
        (normalizeChars "week 2 trinity 2025 tuesday".data))) = .termWeek .trinity 2 "2024-25"
    ∧ parseQuery "week 2 trinity 2025 tuesday" = .termWeek .trinity 2 "2024-25" := by
  refine ⟨by decide, by decide, by decide⟩

/-- C7, amended: whenever the day-name detector fires (the day token is a
prefix of the normalized query or surrounded by spaces) and the query with
that token removed parses as a valid term-week, `parseQuery` returns the
day-term-week variant with that day's number and the embedded term-week's
fields. -/
theorem C7_day_term_week_amended (q : String) (name : List Char) (d w : Nat)
    (t : Term) (y : String)
    (h1 : findDayName (normalizeChars q.data) = some (name, d))
    (h2 : parseTermWeekQuery (trimChars (removeDayWord name (normalizeChars q.data)))
        = .termWeek t w y) :
    parseQuery q = .dayTermWeek d t w y := by
  have hne : q.data ≠ [] := by
    intro he
    have : findDayName (normalizeChars q.data) = none := by rw [he]; decide
    rw [this] at h1
    exact Option.noConfusion h1
  unfold parseQuery
  rw [if_neg hne]
  have hday : parseDayWeekQuery (normalizeChars q.data) = .dayTermWeek d t w y := by
    unfold parseDayWeekQuery
    rw [h1]
    simp only [h2]
  simp [hday, ParsedQuery.isInvalid, ParsedQuery.errorOf, ParsedQuery.isDayTermWeek]

/-- Witness for the amended C7. -/
theorem C7_day_term_week_amended_witness :
    parseQuery "Tuesday Week 2 Trinity 2025" = .dayTermWeek 2 .trinity 2 "2024-25" :=
  C7_day_term_week_amended "Tuesday Week 2 Trinity 2025" "tuesday".data 2 2 .trinity "2024-25"
    (by decide) (by decide)

/-!
## C8 — case and whitespace invariance
-/

/-- C8, counterexample: `"13 wk tt 2025"` and `"1 3 wk tt 2025"` differ only
in whitespace (their whitespace-stripped characters agree), yet one parses to
the typed week-number failure and the other to a valid term-week: moving
whitespace into the digit run changes which digits the week regex captures. -/
theorem C8_whitespace_cex :
    stripSpaces "13 wk tt 2025".data = stripSpaces "1 3 wk tt 2025".data
    ∧ parseQuery "13 wk tt 2025" = .invalid (some weekErrMsg)
    ∧ parseQuery "1 3 wk tt 2025" = .termWeek .trinity 3 "2024-25"
    ∧ parseQuery "13 wk tt 2025" ≠ parseQuery "1 3 wk tt 2025" := by
  refine ⟨by decide, by decide, by decide, by decide⟩

/-- C8, amended: the parser's result is invariant under changes of letter
case and of leading/trailing whitespace — precisely, any two non-empty query
strings with the same normalization (trim + lowercase) parse identically.
Invariance under arbitrary internal whitespace rearrangement does not hold. -/
theorem C8_normalization_invariance (s1 s2 : String)
    (h1 : s1.data ≠ []) (h2 : s2.data ≠ [])
    (h : normalizeChars s1.data = normalizeChars s2.data) :
    parseQuery s1 = parseQuery s2 := by
  unfold parseQuery
  rw [if_neg h1, if_neg h2, h]

/-- Witness for the amended C8: a casing/edge-whitespace variant pair. -/
theorem C8_normalization_invariance_witness :
    parseQuery "WEEK 5 MICHAELMAS 2026" = parseQuery "  week 5 michaelmas 2026 " :=
  C8_normalization_invariance _ _ (by decide) (by decide) (by decide)

end OxCal

namespace OxCal

/-! ## Digit arithmetic lemmas -/

theorem digitVal_le {c : Char} (h : c.isDigit = true) : digitVal c ≤ 9 := by
  simp only [Char.isDigit, decide_eq_true_eq, Bool.and_eq_true] at h
  have h2 : c.val.toNat ≤ 57 := h.2
  unfold digitVal Char.toNat
  omega

/-- The three renderings used by the bare-year derivation, checked over the
whole range the year regex admits. -/
theorem bareYearArith : ∀ k < 100,
    parseIntNat (Nat.repr (2000 + k)).data = 2000 + k
    ∧ sliceLast2 (Nat.repr (2000 + k + 1)) = pad2 ((2000 + k + 1) % 100)
    ∧ sliceLast2 (Nat.repr (2000 + k)) = pad2 ((2000 + k) % 100) := by decide

/-!
## C4 — derivation of the academic year
-/

/-- C4: when all three components are extracted and the week number is in
range, the parsed year is: the explicit `YYYY-YY` range verbatim when the
optional group matched; otherwise, for a bare year `Y`, `"Y-((Y+1) mod 100)"`
under Michaelmas and `"(Y-1)-(Y mod 100)"` under Hilary/Trinity. -/
theorem C4_academic_year_derivation (q ds ystr : List Char) (t : Term)
    (osuf : Option (List Char)) (Y : Nat)
    (hweek : weekMatchOf q = some ds) (hw : parseIntNat ds ≤ 12)
    (hterm : findTermName q = some t)
    (hyear : yearMatchOf q = some (ystr, osuf)) :
    (osuf = none → ystr = (Nat.repr Y).data → 2000 ≤ Y → Y ≤ 2099 →
        parseTermWeekQuery q = .termWeek t (parseIntNat ds) (acadYearFromBare t Y))
    ∧ (∀ suf, osuf = some suf →
        parseTermWeekQuery q = .termWeek t (parseIntNat ds)
          (String.mk ystr ++ "-" ++ String.mk suf)) := by
  have hptw : parseTermWeekQuery q
      = .termWeek t (parseIntNat ds) (deriveYear t ystr osuf) := by
    unfold parseTermWeekQuery
    simp only [hweek, hterm, hyear]
    rw [if_neg (by omega)]
  constructor
  · intro h0 h1 h2 h3
    subst h0 h1
    obtain ⟨e1, e2, e3⟩ := bareYearArith (Y - 2000) (by omega)
    have hY : 2000 + (Y - 2000) = Y := by omega
    rw [hY] at e1 e2 e3
    rw [hptw]
    cases t <;> simp [deriveYear, acadYearFromBare, e1, e2, e3]
  · intro suf hs
    subst hs
    rw [hptw]
    rfl

/-- Witness for C4, at the spec's own example `"hilary week 2 2025"` (bare
year) and at `"week 0 ht 2024-25"` (explicit range). -/
theorem C4_academic_year_derivation_witness :
    parseTermWeekQuery "hilary week 2 2025".data
      = .termWeek .hilary 2 (acadYearFromBare .hilary 2025)
    ∧ parseTermWeekQuery "week 0 ht 2024-25".data
      = .termWeek .hilary 0 (String.mk "2024".data ++ "-" ++ String.mk "25".data) :=
  ⟨(C4_academic_year_derivation "hilary week 2 2025".data "2".data "2025".data .hilary
      none 2025 (by decide) (by decide) (by decide) (by decide)).1 rfl (by decide)
      (by decide) (by decide),
   (C4_academic_year_derivation "week 0 ht 2024-25".data "0".data "2024".data .hilary
      (some "25".data) 0 (by decide) (by decide) (by decide) (by decide)).2
      "25".data rfl⟩

/-!
## C10 — the year-token patterns only admit 2000–2099
-/

theorem yearAt_bounds {l ystr : List Char} {osuf : Option (List Char)}
    (h : yearAt l = some (ystr, osuf)) :
    2000 ≤ parseIntNat ystr ∧ parseIntNat ystr ≤ 2099 := by
  unfold yearAt at h
  split at h
  case h_2 => exact absurd h (by simp)
  case h_1 c0 c1 c2 c3 rest =>
    split at h
    case isFalse => exact absurd h (by simp)
    case isTrue hg =>
      simp only [Bool.and_eq_true, beq_iff_eq] at hg
      obtain ⟨⟨⟨e0, e1⟩, hc2⟩, hc3⟩ := hg
      subst e0 e1
      have b1 := digitVal_le hc2
      have b2 := digitVal_le hc3
      have hystr : ystr = ['2', '0', c2, c3] := by
        split at h
        · split at h
          · exact (Prod.mk.injEq _ _ _ _ ▸ Option.some.injEq _ _ ▸ h).1.symm ▸ rfl
          · exact (Prod.mk.injEq _ _ _ _ ▸ Option.some.injEq _ _ ▸ h).1.symm ▸ rfl
        · split at h
          · exact (Prod.mk.injEq _ _ _ _ ▸ Option.some.injEq _ _ ▸ h).1.symm ▸ rfl
          · exact absurd h (by simp)
      subst hystr
      have e : parseIntNat ['2', '0', c2, c3] = 2000 + 10 * digitVal c2 + digitVal c3 := by
        have e2 : digitVal '2' = 2 := by decide
        have e0' : digitVal '0' = 0 := by decide
        simp only [parseIntNat, List.foldl, e2, e0']
        omega
      rw [e]
      omega

theorem yearScanGo_bounds (l : List Char) : ∀ (prev : Option Char)
    (ystr : List Char) (osuf : Option (List Char)),
    yearScanGo prev l = some (ystr, osuf) →
    2000 ≤ parseIntNat ystr ∧ parseIntNat ystr ≤ 2099 := by
  induction l with
  | nil => intro prev ystr osuf h; exact absurd h (by simp [yearScanGo])
  | cons c rest ih =>
    intro prev ystr osuf h
    unfold yearScanGo at h
    split at h
    · cases hy : yearAt (c :: rest) with
      | some res =>
        rw [hy] at h
        obtain ⟨ystr', osuf'⟩ := res
        cases h
        exact yearAt_bounds hy
      | none =>
        rw [hy] at h
        exact ih (some c) ystr osuf h
    · exact ih (some c) ystr osuf h

theorem dateYearAt_bounds {l ystr : List Char} (h : dateYearAt l = some ystr) :
    2000 ≤ parseIntNat ystr ∧ parseIntNat ystr ≤ 2099 := by
  unfold dateYearAt at h
  split at h
  case h_2 => exact absurd h (by simp)
  case h_1 c1 c2 rest =>
    split at h
    case isFalse => exact absurd h (by simp)
    case isTrue hd =>
      obtain ⟨hd', _⟩ := Bool.and_eq_true_iff.mp hd
      obtain ⟨hd1, hd2⟩ := Bool.and_eq_true_iff.mp hd'
      have b1 := digitVal_le hd1
      have b2 := digitVal_le hd2
      cases h
      have e : parseIntNat ['2', '0', c1, c2] = 2000 + 10 * digitVal c1 + digitVal c2 := by
        have e2 : digitVal '2' = 2 := by decide
        have e0 : digitVal '0' = 0 := by decide
        simp only [parseIntNat, List.foldl, e2, e0]
        omega
      rw [e]
      omega

theorem dateYearGo_bounds (l : List Char) : ∀ (prev : Option Char) (ystr : List Char),
    dateYearGo prev l = some ystr →
    2000 ≤ parseIntNat ystr ∧ parseIntNat ystr ≤ 2099 := by
  induction l with
  | nil => intro prev ystr h; exact absurd h (by simp [dateYearGo])
  | cons c rest ih =>
    intro prev ystr h
    unfold dateYearGo at h
    split at h
    · cases hy : dateYearAt (c :: rest) with
      | some res =>
        rw [hy] at h
        cases h
        exact dateYearAt_bounds hy
      | none =>
        rw [hy] at h
        exact ih (some c) ystr h
    · exact ih (some c) ystr h

/-- C10: both year-token scanners (the term-week one and the natural-date
one) only ever capture years `20\d\d`, i.e. values in [2000, 2099]; a
term-week query without such a year token is a silent non-match (so e.g.
`"Week 5 Michaelmas 1999"` and `"25 March 1999"` are `invalid`), while the
anchored ISO and UK formats accept arbitrary 4-digit years. -/
theorem C10_year_token_restriction :
    (∀ (q ystr : List Char) (osuf : Option (List Char)),
        yearMatchOf q = some (ystr, osuf) →
        2000 ≤ parseIntNat ystr ∧ parseIntNat ystr ≤ 2099)
    ∧ (∀ q ystr : List Char, dateYearGo none q = some ystr →
        2000 ≤ parseIntNat ystr ∧ parseIntNat ystr ≤ 2099)
    ∧ (∀ q : List Char, yearMatchOf q = none → parseTermWeekQuery q = .invalid none)
    ∧ parseQuery "Week 5 Michaelmas 1999" = .invalid (some "Could not parse query")
    ∧ parseQuery "25 March 1999" = .invalid (some "Could not parse query")
    ∧ parseQuery "1999-03-25" = .date "1999-03-25"
    ∧ parseQuery "25/03/1850" = .date "1850-03-25" := by
  refine ⟨fun q ystr osuf h => yearScanGo_bounds q none ystr osuf h,
    fun q ystr h => dateYearGo_bounds q none ystr h,
    fun q h => ?_, by decide, by decide, by decide, by decide⟩
  unfold parseTermWeekQuery
  simp only [h]
  cases weekMatchOf q <;> cases findTermName q <;> rfl

/-- Witness for C10's universally quantified parts. -/
theorem C10_year_token_restriction_witness :
    (2000 ≤ parseIntNat "2026".data ∧ parseIntNat "2026".data ≤ 2099)
    ∧ (2000 ≤ parseIntNat "2027".data ∧ parseIntNat "2027".data ≤ 2099)
    ∧ parseTermWeekQuery "week 5 michaelmas 1999".data = .invalid none :=
  ⟨C10_year_token_restriction.1 "mich wk 5 2026".data "2026".data none (by decide),
   C10_year_token_restriction.2.1 "25 march 2027".data "2027".data (by decide),
   C10_year_token_restriction.2.2.1 "week 5 michaelmas 1999".data (by decide)⟩

end OxCal

namespace OxCal

/-! ## De-duplication lemmas for C9 -/

theorem upsertByText_nodup (acc : List Suggestion) (s : Suggestion)
    (h : (acc.map Suggestion.text).Nodup) :
    ((upsertByText acc s).map Suggestion.text).Nodup := by
  unfold upsertByText
  by_cases hmem : acc.any (fun a => a.text == s.text)
  · rw [if_pos hmem]
    have e : (acc.map (fun a => if a.text == s.text then s else a)).map Suggestion.text
        = acc.map Suggestion.text := by
      rw [List.map_map]
      apply List.map_congr_left
      intro a _
      by_cases hb : a.text == s.text
      · simp only [Function.comp, hb, if_true]
        exact (beq_iff_eq.mp hb).symm
      · simp [Function.comp, hb]
    rw [e]
    exact h
  · rw [if_neg hmem]
    have hnotin : s.text ∉ acc.map Suggestion.text := by
      intro hin
      obtain ⟨a, ha, he⟩ := List.mem_map.mp hin
      exact hmem (List.any_eq_true.mpr ⟨a, ha, beq_iff_eq.mpr he⟩)
    simp only [List.map_append, List.map_cons, List.map_nil]
    rw [List.nodup_append]
    refine ⟨h, List.nodup_singleton _, ?_⟩
    intro x hx hx'
    rw [List.mem_singleton.mp hx'] at hx
    exact hnotin hx

theorem foldl_upsertByText_nodup (l : List Suggestion) : ∀ acc : List Suggestion,
    (acc.map Suggestion.text).Nodup →
    ((l.foldl upsertByText acc).map Suggestion.text).Nodup := by
  induction l with
  | nil => intro acc h; exact h
  | cons s rest ih =>
    intro acc h
    exact ih (upsertByText acc s) (upsertByText_nodup acc s h)

theorem dedupeByText_nodup (l : List Suggestion) :
    ((dedupeByText l).map Suggestion.text).Nodup :=
  foldl_upsertByText_nodup l [] (by simp)

/-!
## C9 — the suggestion generator
-/

/-- C9, counterexample: with a configured cap of 2 and the one-character
input `"x"`, the generator returns the four default example suggestions —
more than the cap, and not the empty result the claim requires for inputs
below the length floor.  (The repo's own test
`generateSuggestions('w', { maxSuggestions: 3 })` trips over the same
uncapped default path.) -/
theorem C9_suggestions_cex :
    (generateSuggestions sugMockTermsData sugMockToday "x"
        (SuggestOptions.mk (some 2))).length = 4
    ∧ ¬((generateSuggestions sugMockTermsData sugMockToday "x"
        (SuggestOptions.mk (some 2))).length ≤ (SuggestOptions.mk (some 2)).cap)
    ∧ generateSuggestions sugMockTermsData sugMockToday "x"
        (SuggestOptions.mk (some 2)) ≠ [] := by
  refine ⟨by decide, by decide, by decide⟩

/-- C9, amended: `generateSuggestions` is total (never raises) over a loaded
table and reference date.  For inputs of length ≥ 2 it returns a sequence
de-duplicated by suggestion text and capped at `options.maxSuggestions || 8`;
for inputs below the length floor of 2 it returns the fixed list of four
default example suggestions (bypassing both the cap and de-duplication), not
the empty result. -/
theorem C9_suggestions_amended (td : TermsData) (today : Int) (input : String)
    (options : SuggestOptions) :
    (2 ≤ input.data.length →
        ((generateSuggestions td today input options).map Suggestion.text).Nodup
        ∧ (generateSuggestions td today input options).length ≤ options.cap)
    ∧ (input.data.length < 2 →
        generateSuggestions td today input options = getDefaultSuggestions td today
        ∧ (generateSuggestions td today input options).length = 4) := by
  constructor
  · intro h
    have hcond : ¬(input.data = [] ∨ input.data.length < 2) := by
      rintro (he | hl)
      · rw [he] at h; exact absurd h (by decide)
      · omega
    unfold generateSuggestions
    rw [if_neg hcond]
    constructor
    · rw [List.map_take]
      exact ((List.take_sublist _ _).nodup (dedupeByText_nodup _))
    · exact List.length_take_le _ _
  · intro h
    unfold generateSuggestions
    rw [if_pos (Or.inr h)]
    exact ⟨rfl, by simp [getDefaultSuggestions]⟩

/-- Witness for the amended C9. -/
theorem C9_suggestions_amended_witness :
    ((generateSuggestions sugMockTermsData sugMockToday "week 3"
        (SuggestOptions.mk (some 3))).map Suggestion.text).Nodup
    ∧ (generateSuggestions sugMockTermsData sugMockToday "week 3"
        (SuggestOptions.mk (some 3))).length ≤ (SuggestOptions.mk (some 3)).cap :=
  (C9_suggestions_amended sugMockTermsData sugMockToday "week 3"
    (SuggestOptions.mk (some 3))).1 (by decide)

end OxCal

namespace OxCal

/-!
## C5 — day-term-week date arithmetic
-/

/-- C5: for a day-term-week query (`parseQuery q` yields the day-term-week
variant) that resolves to a week entry of the table, written canonically:
if the entry spans Sunday–Saturday (`end = start + 6` days) the search
succeeds with the single date `start + dayOfWeek` — day 0 giving exactly the
entry's start string and day 6 exactly its end string — and whenever the
computed date exceeds the entry's end the search fails with
"Date falls outside the specified week". -/
theorem C5_day_arithmetic (td : TermsData) (q : String) (d w : Nat) (t : Term)
    (y : String) (entry : WeekEntry) (rs re : Int)
    (hparse : parseQuery q = .dayTermWeek d t w y)
    (hd : d ≤ 6)
    (hget : getWeekData td y t w = some entry)
    (hrs : parseISODate entry.start = rs) (hre : parseISODate entry.«end» = re)
    (hcs : entry.start = toISODateString rs) (hce : entry.«end» = toISODateString re) :
    (re = rs + 6 →
      (∃ disp det, search td q = .singleDate (toISODateString (rs + (d : Int)))
          [rs + (d : Int)] (some t) (some w) (some y) (some d) disp det)
      ∧ (d = 0 → toISODateString (rs + (d : Int)) = entry.start)
      ∧ (d = 6 → toISODateString (rs + (d : Int)) = entry.«end»))
    ∧ (re < rs + (d : Int) →
        search td q = .failure "Date falls outside the specified week"
          (.parsed (.dayTermWeek d t w y))) := by
  have hsearch : search td q = searchDayTermWeek td d t w y := by
    unfold search
    rw [hparse]
  constructor
  · intro h6
    have heq : search td q = .singleDate (toISODateString (rs + (d : Int)))
        [rs + (d : Int)] (some t) (some w) (some y) (some d)
        (formatDateFull (rs + (d : Int)))
        ((dayNamesFull.getD d "") ++ ", Week " ++ Nat.repr w ++ " of "
          ++ capitalizeFirst t.str ++ " Term " ++ y) := by
      rw [hsearch]
      unfold searchDayTermWeek
      rw [hget]
      simp only [hrs, hre, addDays]
      rw [if_neg (by omega)]
    refine ⟨⟨_, _, heq⟩, ?_, ?_⟩
    · intro h0
      subst h0
      rw [hcs]
      norm_num
    · intro h6'
      subst h6'
      rw [hce, h6]
      norm_num
  · intro hlt
    rw [hsearch]
    unfold searchDayTermWeek
    rw [hget]
    simp only [hrs, hre, addDays]
    rw [if_pos (by omega)]

/-- Witness for C5: the spec's own example (Tuesday of Trinity week 2,
2024-25, resolving to 2025-05-06) and the failure branch on a table whose
week entry is shorter than Sunday–Saturday. -/
theorem C5_day_arithmetic_witness :
    (∃ disp det, search mockTermsData "Tuesday Week 2 Trinity 2025"
        = .singleDate (toISODateString (parseISODate "2025-05-04" + (2 : Int)))
            [parseISODate "2025-05-04" + (2 : Int)] (some .trinity) (some 2)
            (some "2024-25") (some 2) disp det)
    ∧ search shortWeekTermsData "friday week 2 trinity 2025"
        = .failure "Date falls outside the specified week"
            (.parsed (.dayTermWeek 5 .trinity 2 "2024-25")) :=
  ⟨((C5_day_arithmetic mockTermsData "Tuesday Week 2 Trinity 2025" 2 2 .trinity "2024-25"
      ⟨"2025-05-04", "2025-05-10"⟩ (parseISODate "2025-05-04") (parseISODate "2025-05-10")
      (by decide) (by decide) (by decide) rfl rfl (by decide) (by decide)).1 (by decide)).1,
   (C5_day_arithmetic shortWeekTermsData "friday week 2 trinity 2025" 5 2 .trinity "2024-25"
      ⟨"2025-05-04", "2025-05-06"⟩ (parseISODate "2025-05-04") (parseISODate "2025-05-06")
      (by decide) (by decide) (by decide) rfl rfl (by decide) (by decide)).2 (by decide)⟩

end OxCal

namespace OxCal

/-! ## Scan lemmas for the reverse lookup (C6) -/

theorem scanWeeks_eq_none_iff (tdta : TermData) (z : Int) (ks : List Nat) :
    scanWeeks tdta z ks = none ↔
      ∀ k ∈ ks, ∀ wd, lookupKey tdta (weekKey k) = some wd → ¬entryContains wd z := by
  induction ks with
  | nil => simp [scanWeeks]
  | cons k rest ih =>
    unfold scanWeeks
    cases hl : lookupKey tdta (weekKey k) with
    | none =>
      simp only [List.forall_mem_cons, ih, hl]
      constructor
      · intro h
        exact ⟨fun wd hwd => absurd hwd (by simp), h⟩
      · intro h
        exact h.2
    | some wd =>
      by_cases hc : parseISODate wd.start ≤ z ∧ z ≤ parseISODate wd.«end»
      · simp only [if_pos hc, List.forall_mem_cons]
        constructor
        · intro h
          exact absurd h (by simp)
        · intro h
          exact absurd hc (h.1 wd hl)
      · simp only [if_neg hc, List.forall_mem_cons, ih]
        constructor
        · intro h
          refine ⟨fun wd' hwd' => ?_, h⟩
          rw [hl] at hwd'
          cases hwd'
          exact hc
        · intro h
          exact h.2

theorem scanWeeks_eq_some (tdta : TermData) (z : Int) (ks : List Nat)
    (k : Nat) (wd : WeekEntry) (h : scanWeeks tdta z ks = some (k, wd)) :
    k ∈ ks ∧ lookupKey tdta (weekKey k) = some wd ∧ entryContains wd z := by
  induction ks with
  | nil => exact absurd h (by simp [scanWeeks])
  | cons k' rest ih =>
    unfold scanWeeks at h
    cases hl : lookupKey tdta (weekKey k') with
    | none =>
      simp only [hl] at h
      obtain ⟨hm, hrest⟩ := ih h
      exact ⟨List.mem_cons_of_mem _ hm, hrest⟩
    | some wd' =>
      simp only [hl] at h
      by_cases hc : parseISODate wd'.start ≤ z ∧ z ≤ parseISODate wd'.«end»
      · rw [if_pos hc] at h
        obtain ⟨hk, hwd⟩ := Prod.mk.injEq .. ▸ Option.some.injEq .. ▸ h
        subst hk
        subst hwd
        exact ⟨List.mem_cons_self .., ⟨hl, hc⟩⟩
      · rw [if_neg hc] at h
        obtain ⟨hm, hrest⟩ := ih h
        exact ⟨List.mem_cons_of_mem _ hm, hrest⟩

theorem scanTerms_eq_none_iff (yd : YearRecord) (z : Int) (ts : List Term) :
    scanTerms yd z ts = none ↔
      ∀ t ∈ ts, ∀ tdta, lookupKey yd.terms t.str = some tdta →
        scanWeeks tdta z (List.range 13) = none := by
  induction ts with
  | nil => simp [scanTerms]
  | cons t rest ih =>
    unfold scanTerms
    cases hl : lookupKey yd.terms t.str with
    | none =>
      simp only [List.forall_mem_cons, ih, hl]
      constructor
      · intro h
        exact ⟨fun tdta htd => absurd htd (by simp), h⟩
      · intro h
        exact h.2
    | some tdta =>
      cases hw : scanWeeks tdta z (List.range 13) with
      | some p =>
        simp only [hl, hw, List.forall_mem_cons]
        constructor
        · intro h
          exact absurd h (by simp)
        · intro h
          rw [h.1 tdta rfl] at hw
          exact Option.noConfusion hw
      | none =>
        simp only [hl, hw, List.forall_mem_cons, ih]
        constructor
        · intro h
          refine ⟨fun tdta' htd' => ?_, h⟩
          cases htd'
          exact hw
        · intro h
          exact h.2

theorem scanTerms_eq_some (yd : YearRecord) (z : Int) (ts : List Term)
    (t : Term) (k : Nat) (wd : WeekEntry)
    (h : scanTerms yd z ts = some (t, k, wd)) :
    t ∈ ts ∧ ∃ tdta, lookupKey yd.terms t.str = some tdta
      ∧ scanWeeks tdta z (List.range 13) = some (k, wd) := by
  induction ts with
  | nil => exact absurd h (by simp [scanTerms])
  | cons t' rest ih =>
    unfold scanTerms at h
    cases hl : lookupKey yd.terms t'.str with
    | none =>
      simp only [hl] at h
      obtain ⟨hm, hrest⟩ := ih h
      exact ⟨List.mem_cons_of_mem _ hm, hrest⟩
    | some tdta =>
      simp only [hl] at h
      cases hw : scanWeeks tdta z (List.range 13) with
      | some p =>
        simp only [hw] at h
        obtain ⟨k', wd'⟩ := p
        obtain ⟨ht, hk, hwd⟩ := Prod.mk.injEq .. ▸ Prod.mk.injEq .. ▸ Option.some.injEq .. ▸ h
        subst ht
        subst hk
        subst hwd
        exact ⟨List.mem_cons_self .., tdta, hl, hw⟩
      | none =>
        simp only [hw] at h
        obtain ⟨hm, hrest⟩ := ih h
        exact ⟨List.mem_cons_of_mem _ hm, hrest⟩

theorem scanYears_eq_none_iff (z : Int) (yds : List YearRecord) :
    scanYears z yds = none ↔ ∀ yd ∈ yds, scanTerms yd z termOrder = none := by
  induction yds with
  | nil => simp [scanYears]
  | cons yd rest ih =>
    unfold scanYears
    cases ht : scanTerms yd z termOrder with
    | some p =>
      simp only [ht, List.forall_mem_cons]
      constructor
      · intro h
        exact absurd h (by simp)
      · intro h
        exact absurd h.1 (by simp)
    | none =>
      simp only [ht, List.forall_mem_cons, ih]
      constructor
      · intro h
        exact ⟨trivial, h⟩
      · intro h
        exact h.2

theorem scanYears_eq_some (z : Int) (yds : List YearRecord) (hit : TermWeekHit)
    (h : scanYears z yds = some hit) :
    ∃ yd ∈ yds, hit.year = yd.year
      ∧ scanTerms yd z termOrder = some (hit.term, hit.week, hit.weekData) := by
  induction yds with
  | nil => exact absurd h (by simp [scanYears])
  | cons yd rest ih =>
    unfold scanYears at h
    cases ht : scanTerms yd z termOrder with
    | some p =>
      simp only [ht] at h
      obtain ⟨t, k, wd⟩ := p
      cases h
      exact ⟨yd, List.mem_cons_self .., rfl, ht⟩
    | none =>
      simp only [ht] at h
      obtain ⟨yd', hm, he, hs⟩ := ih h
      exact ⟨yd', List.mem_cons_of_mem _ hm, he, hs⟩

theorem find?_year_of_mem (l : List YearRecord) (yd : YearRecord) (hmem : yd ∈ l)
    (huniq : (l.map YearRecord.year).Nodup) :
    l.find? (fun t => t.year == yd.year) = some yd := by
  induction l with
  | nil => cases hmem
  | cons a rest ih =>
    rcases List.mem_cons.mp hmem with he | hm
    · subst he
      rw [List.find?_cons_of_pos _ (by simp)]
    · have hne : (a.year == yd.year) = false := by
        rw [beq_eq_false_iff_ne]
        intro he
        have hin : yd.year ∈ rest.map YearRecord.year := List.mem_map_of_mem _ hm
        rw [← he] at hin
        exact (List.nodup_cons.mp huniq).1 hin
      rw [List.find?_cons_of_neg _ (by simp [hne])]
      exact ih hm (List.nodup_cons.mp huniq).2

/-!
## C6 — round-trip of the lookup engine
-/

/-- C6: over a table whose year records are uniquely keyed, every date lying
within some week entry makes `findTermWeekForDate` return a hit whose
`(year, term, week)` triple re-derives, via `getWeekData`, exactly the hit's
entry, whose range contains the date; a date inside no entry yields `none`
(for example 2024-07-15 against the loaded exemplar table). -/
theorem C6_round_trip (td : TermsData) (z : Int)
    (huniq : (td.terms.map YearRecord.year).Nodup) :
    (tableHasDate td z →
        ∃ hit, findTermWeekForDate td z = some hit
          ∧ hit.week ≤ 12
          ∧ getWeekData td hit.year hit.term hit.week = some hit.weekData
          ∧ entryContains hit.weekData z)
    ∧ (¬ tableHasDate td z → findTermWeekForDate td z = none)
    ∧ findTermWeekForDate mockTermsData (daysFromCivil 2024 7 15) = none := by
  have hnone_iff : findTermWeekForDate td z = none ↔ ¬ tableHasDate td z := by
    unfold findTermWeekForDate tableHasDate
    rw [scanYears_eq_none_iff]
    constructor
    · intro h ⟨yd, hyd, t, htm, tdta, htd, k, hk, wd, hwd, hc⟩
      have := (scanTerms_eq_none_iff yd z termOrder).mp (h yd hyd) t htm tdta htd
      exact (scanWeeks_eq_none_iff tdta z (List.range 13)).mp this k hk wd hwd hc
    · intro h yd hyd
      rw [scanTerms_eq_none_iff]
      intro t htm tdta htd
      rw [scanWeeks_eq_none_iff]
      intro k hk wd hwd hc
      exact h ⟨yd, hyd, t, htm, tdta, htd, k, hk, wd, hwd, hc⟩
  refine ⟨?_, fun h => hnone_iff.mpr h, by decide⟩
  intro hhas
  cases hfind : findTermWeekForDate td z with
  | none => exact absurd hhas (hnone_iff.mp hfind)
  | some hit =>
    obtain ⟨yd, hyd, hyear, hterms⟩ := scanYears_eq_some z td.terms hit hfind
    obtain ⟨_, tdta, htd, hweeks⟩ := scanTerms_eq_some yd z termOrder hit.term hit.week
      hit.weekData hterms
    obtain ⟨hkmem, hlook, hcont⟩ := scanWeeks_eq_some tdta z (List.range 13) hit.week
      hit.weekData hweeks
    refine ⟨hit, rfl, by have := List.mem_range.mp hkmem; omega, ?_, hcont⟩
    unfold getWeekData getTermData getYearData
    rw [hyear, find?_year_of_mem td.terms yd hyd huniq]
    simp only [Option.bind_eq_bind, Option.some_bind, htd, hlook]

/-- Witness for C6 at the exemplar table and 2024-10-15 (Michaelmas week 1). -/
theorem C6_round_trip_witness :
    ∃ hit, findTermWeekForDate mockTermsData (daysFromCivil 2024 10 15) = some hit
      ∧ hit.week ≤ 12
      ∧ getWeekData mockTermsData hit.year hit.term hit.week = some hit.weekData
      ∧ entryContains hit.weekData (daysFromCivil 2024 10 15) :=
  (C6_round_trip mockTermsData (daysFromCivil 2024 10 15) (by decide)).1 (by decide)

end OxCal

namespace OxCal

/-! ## The canonical term-week query parses to its components (C1) -/

theorem string_mk_append (l1 l2 : List Char) :
    String.mk l1 ++ String.mk l2 = String.mk (l1 ++ l2) := rfl

theorem parseQuery_congr (s1 s2 : String) (h : s1.data = s2.data) :
    parseQuery s1 = parseQuery s2 := by
  unfold parseQuery
  rw [h]

set_option maxHeartbeats 1600000 in
/-- Embeds `parseQuery` on `"Week u {Term} 20ab-cd"` for a single week digit `u`. -/
theorem parseQuery_core1 (t : Term) (u a b c d : Char) (hu : u.isDigit = true)
    (ha : a.isDigit = true) (hb : b.isDigit = true) (hc : c.isDigit = true)
    (hd : d.isDigit = true) :
    parseQuery (String.mk ('W' :: 'e' :: 'e' :: 'k' :: ' ' :: u :: ' '
        :: ((capitalizeFirst t.str).data ++ (' ' :: '2' :: '0' :: a :: b :: '-' :: c :: d :: []))))
      = .termWeek t (parseIntNat [u]) (String.mk ['2', '0', a, b, '-', c, d]) := by
  have h12 : ¬ parseIntNat [u] > 12 := by
    have := digitVal_le hu
    simp only [parseIntNat, List.foldl, Nat.zero_mul, Nat.zero_add]
    omega
  cases t <;>
  simp [parseQuery, normalizeChars, trimChars, toLowerChars, capitalizeFirst,
    Term.str, parseDayWeekQuery, findDayName, dayNames, parseTermWeekQuery, weekMatchOf,
    weekMatch1, weekMatch2, weekAfterW, weekKOpt, weekDigitsAfter, takeDigits, skipSpaces,
    p2AfterDigits, yearMatchOf, yearScanGo, yearAt, findTermName, termNames, containsSub,
    List.isPrefixOf, isBoundary, boundaryAfter, isWordChar, isSpaceChar, weekNumberKey,
    deriveYear, removeDayWord, removeDayWordGo, String.data,
    ParsedQuery.isInvalid, ParsedQuery.errorOf, ParsedQuery.isDayTermWeek,
    beq_false_of_digit_right hu, beq_false_of_digit_left hu,
    beq_false_of_digit_right ha, beq_false_of_digit_right hb,
    beq_false_of_digit_right hc, beq_false_of_digit_right hd,
    beq_false_of_digit_left ha, beq_false_of_digit_left hb,
    beq_false_of_digit_left hc, beq_false_of_digit_left hd,
    toLower_digit hu, toLower_digit ha, toLower_digit hb, toLower_digit hc, toLower_digit hd,
    isWordChar_digit hu, isWordChar_digit ha, isWordChar_digit hb, isWordChar_digit hc,
    isWordChar_digit hd,
    isSpaceChar_digit hu, isSpaceChar_digit ha, isSpaceChar_digit hb, isSpaceChar_digit hc,
    isSpaceChar_digit hd,
    hu, ha, hb, hc, hd, h12] <;>
  rfl

set_option maxHeartbeats 1600000 in
/-- Embeds `parseQuery` on `"Week uv {Term} 20ab-cd"` for two week digits `u`, `v`
with value at most 12. -/
theorem parseQuery_core2 (t : Term) (u v a b c d : Char) (hu : u.isDigit = true)
    (hv : v.isDigit = true) (ha : a.isDigit = true) (hb : b.isDigit = true)
    (hc : c.isDigit = true) (hd : d.isDigit = true) (h12 : parseIntNat [u, v] ≤ 12) :
    parseQuery (String.mk ('W' :: 'e' :: 'e' :: 'k' :: ' ' :: u :: v :: ' '
        :: ((capitalizeFirst t.str).data ++ (' ' :: '2' :: '0' :: a :: b :: '-' :: c :: d :: []))))
      = .termWeek t (parseIntNat [u, v]) (String.mk ['2', '0', a, b, '-', c, d]) := by
  have h12' : ¬ parseIntNat [u, v] > 12 := by omega
  cases t <;>
  simp [parseQuery, normalizeChars, trimChars, toLowerChars, capitalizeFirst,
    Term.str, parseDayWeekQuery, findDayName, dayNames, parseTermWeekQuery, weekMatchOf,
    weekMatch1, weekMatch2, weekAfterW, weekKOpt, weekDigitsAfter, takeDigits, skipSpaces,
    p2AfterDigits, yearMatchOf, yearScanGo, yearAt, findTermName, termNames, containsSub,
    List.isPrefixOf, isBoundary, boundaryAfter, isWordChar, isSpaceChar, weekNumberKey,
    deriveYear, removeDayWord, removeDayWordGo, String.data,
    ParsedQuery.isInvalid, ParsedQuery.errorOf, ParsedQuery.isDayTermWeek,
    beq_false_of_digit_right hu, beq_false_of_digit_left hu,
    beq_false_of_digit_right hv, beq_false_of_digit_left hv,
    beq_false_of_digit_right ha, beq_false_of_digit_right hb,
    beq_false_of_digit_right hc, beq_false_of_digit_right hd,
    beq_false_of_digit_left ha, beq_false_of_digit_left hb,
    beq_false_of_digit_left hc, beq_false_of_digit_left hd,
    toLower_digit hu, toLower_digit hv, toLower_digit ha, toLower_digit hb, toLower_digit hc,
    toLower_digit hd,
    isWordChar_digit hu, isWordChar_digit hv, isWordChar_digit ha, isWordChar_digit hb,
    isWordChar_digit hc, isWordChar_digit hd,
    isSpaceChar_digit hu, isSpaceChar_digit hv, isSpaceChar_digit ha, isSpaceChar_digit hb,
    isSpaceChar_digit hc, isSpaceChar_digit hd,
    hu, hv, ha, hb, hc, hd, h12'] <;>
  rfl

/-- Shape of the decimal rendering of a week number 0-12. -/
theorem weekReprShape : ∀ w' < 13,
    ((Nat.repr w').data.length = 1 ∨ (Nat.repr w').data.length = 2)
    ∧ (Nat.repr w').data.all Char.isDigit = true
    ∧ parseIntNat (Nat.repr w').data = w' := by decide

/-- The canonical query `"Week {w} {Term} {YYYY-YY}"` parses to the expected
term-week for every week number 0-12 and every well-formed academic-year
string. -/
theorem parseQuery_mkTermWeekQuery (w : Nat) (t : Term) (a b c d : Char)
    (hw : w ≤ 12) (ha : a.isDigit = true) (hb : b.isDigit = true)
    (hc : c.isDigit = true) (hd : d.isDigit = true) :
    parseQuery (mkTermWeekQuery w t (String.mk ['2', '0', a, b, '-', c, d]))
      = .termWeek t w (String.mk ['2', '0', a, b, '-', c, d]) := by
  obtain ⟨hlen, hall, hval⟩ := weekReprShape w (by omega)
  rcases hlen with h1 | h2
  · obtain ⟨u, hu⟩ := List.length_eq_one.mp h1
    have hud : u.isDigit = true := by
      have h' := hall
      rw [hu] at h'
      simpa using h'
    have hcongr : parseQuery (mkTermWeekQuery w t (String.mk ['2', '0', a, b, '-', c, d]))
        = parseQuery (String.mk ('W' :: 'e' :: 'e' :: 'k' :: ' ' :: u :: ' '
            :: ((capitalizeFirst t.str).data
              ++ (' ' :: '2' :: '0' :: a :: b :: '-' :: c :: d :: [])))) := by
      apply parseQuery_congr
      simp [mkTermWeekQuery, hu]
    rw [hcongr, parseQuery_core1 t u a b c d hud ha hb hc hd, ← hval, hu]
  · obtain ⟨u, v, huv⟩ := List.length_eq_two.mp h2
    have hud : u.isDigit = true ∧ v.isDigit = true := by
      have h' := hall
      rw [huv] at h'
      simpa using h'
    have h12 : parseIntNat [u, v] ≤ 12 := by
      rw [← huv, hval]
      exact hw
    have hcongr : parseQuery (mkTermWeekQuery w t (String.mk ['2', '0', a, b, '-', c, d]))
        = parseQuery (String.mk ('W' :: 'e' :: 'e' :: 'k' :: ' ' :: u :: v :: ' '
            :: ((capitalizeFirst t.str).data
              ++ (' ' :: '2' :: '0' :: a :: b :: '-' :: c :: d :: [])))) := by
      apply parseQuery_congr
      simp [mkTermWeekQuery, huv]
    rw [hcongr, parseQuery_core2 t u v a b c d hud.1 hud.2 ha hb hc hd h12, ← hval, huv]

/-! ## Length of the enumerated dates -/

theorem enumDatesGo_length (n : Nat) : ∀ s : Int, (enumDatesGo s n).length = n := by
  induction n with
  | zero => intro s; rfl
  | succ n ih =>
    intro s
    simp [enumDatesGo, ih]

theorem enumDates_length (s e : Int) (h : s ≤ e) :
    (enumDates s e).length = (e - s).toNat + 1 := by
  unfold enumDates
  rw [enumDatesGo_length]
  omega

/-!
## C1 — searching a canonical term-week query
-/

/-- C1: for week numbers 0-12 and a well-formed academic-year string, if the
`(term, week, year)` triple is present in the table then
`search("Week {w} {Term} {year}")` succeeds with a week-range whose
`startDate`/`endDate` are exactly the table entry's strings and whose
enumerated dates number `(end - start) + 1` days; if the entry is absent the
search fails with `"Week {w} of {Term} {year} not found"`. -/
theorem C1_search_week_range (td : TermsData) (t : Term) (w : Nat) (a b c d : Char)
    (hw : w ≤ 12) (ha : a.isDigit = true) (hb : b.isDigit = true)
    (hc : c.isDigit = true) (hd : d.isDigit = true) :
    (∀ entry, getWeekData td (String.mk ['2', '0', a, b, '-', c, d]) t w = some entry →
        parseISODate entry.start ≤ parseISODate entry.«end» →
        search td (mkTermWeekQuery w t (String.mk ['2', '0', a, b, '-', c, d]))
          = .weekRange t w (String.mk ['2', '0', a, b, '-', c, d]) entry.start entry.«end»
              (enumDates (parseISODate entry.start) (parseISODate entry.«end»))
              (capitalizeFirst t.str ++ " Term " ++ String.mk ['2', '0', a, b, '-', c, d]
                ++ ", Week " ++ Nat.repr w)
              (formatDateFull (parseISODate entry.start) ++ " - "
                ++ formatDateFull (parseISODate entry.«end»))
          ∧ (enumDates (parseISODate entry.start) (parseISODate entry.«end»)).length
              = (parseISODate entry.«end» - parseISODate entry.start).toNat + 1)
    ∧ (getWeekData td (String.mk ['2', '0', a, b, '-', c, d]) t w = none →
        search td (mkTermWeekQuery w t (String.mk ['2', '0', a, b, '-', c, d]))
          = .failure (notFoundMsg w t (String.mk ['2', '0', a, b, '-', c, d]))
              (.parsed (.termWeek t w (String.mk ['2', '0', a, b, '-', c, d])))) := by
  have hparse := parseQuery_mkTermWeekQuery w t a b c d hw ha hb hc hd
  constructor
  · intro entry hget hle
    refine ⟨?_, enumDates_length _ _ hle⟩
    unfold search
    rw [hparse]
    unfold searchTermWeek
    simp only [hget]
  · intro hget
    unfold search
    rw [hparse]
    unfold searchTermWeek
    simp only [hget]

/-- Witness for C1 at the exemplar table: Michaelmas 2024-25 week 5 is
present (range 2024-11-10 to 2024-11-16), week 9 is absent. -/
theorem C1_search_week_range_witness :
    (search mockTermsData (mkTermWeekQuery 5 .michaelmas (String.mk ['2', '0', '2', '4', '-', '2', '5']))
        = .weekRange .michaelmas 5 (String.mk ['2', '0', '2', '4', '-', '2', '5'])
            "2024-11-10" "2024-11-16"
            (enumDates (parseISODate "2024-11-10") (parseISODate "2024-11-16"))
            (capitalizeFirst Term.michaelmas.str ++ " Term "
              ++ String.mk ['2', '0', '2', '4', '-', '2', '5'] ++ ", Week " ++ Nat.repr 5)
            (formatDateFull (parseISODate "2024-11-10") ++ " - "
              ++ formatDateFull (parseISODate "2024-11-16"))
        ∧ (enumDates (parseISODate "2024-11-10") (parseISODate "2024-11-16")).length
            = (parseISODate "2024-11-16" - parseISODate "2024-11-10").toNat + 1)
    ∧ search mockTermsData (mkTermWeekQuery 9 .michaelmas (String.mk ['2', '0', '2', '4', '-', '2', '5']))
        = .failure (notFoundMsg 9 .michaelmas (String.mk ['2', '0', '2', '4', '-', '2', '5']))
            (.parsed (.termWeek .michaelmas 9 (String.mk ['2', '0', '2', '4', '-', '2', '5']))) :=
  ⟨(C1_search_week_range mockTermsData .michaelmas 5 '2' '4' '2' '5'
      (by decide) rfl rfl rfl rfl).1 ⟨"2024-11-10", "2024-11-16"⟩ (by decide) (by decide),
   (C1_search_week_range mockTermsData .michaelmas 9 '2' '4' '2' '5'
      (by decide) rfl rfl rfl rfl).2 (by decide)⟩

end OxCal
